import Mathlib

/-!
# TLS log adapter (`src/lib/tls/log.c`)

A shallow embedding of the TLS logging glue: the two line-aggregating log BIOs
(request and global), their thread local lifecycle, and the drainers of the
OpenSSL error queue.

Conventions of the embedding

* a byte is a `Nat`; a byte string (`char const *in, int len`) is a `List Nat`;
* the host logging facility is a trace: every call of a logging entry point
  appends one `log_event` to the list of emitted records;
* the OpenSSL error queue is a `List err_record`, oldest record first;
* thread local variables are the fields of `thread_state`;
* a C `while` loop is a recursion on a fuel counter, or a structural recursion
  on the error queue when every iteration pops one record;
* `talloc_get_type_abort` failing, or a NULL pointer being dereferenced, is
  the result `Except.error`.
-/

namespace TlsLog

/-! ## Data model -/

/-- The line terminator byte, `'\n'`. -/
def NL : Nat := 10

/-- What can stop a call before it returns. -/
inductive fault where
  | abort
  | null_deref
  | out_of_fuel
deriving DecidableEq

/-- Modelled from the spec: the log kinds of `fr_log_type_t`, whose declaration
(`util/log.h`) is not part of the sources; only equality of kinds is used. -/
inductive fr_log_type_t where
  | L_INFO
  | L_ERR
  | L_WARN
  | L_AUTH
  | L_DBG
  | L_DBG_INFO
  | L_DBG_WARN
  | L_DBG_ERR
  | L_DBG_WARN_REQ
  | L_DBG_ERR_REQ
deriving DecidableEq

/-- Modelled from the spec: a request (`request_t`, declared outside the
sources) is an identity together with its own debug level, the only thing the
verbosity check reads from it. -/
structure request_t where
  id : Nat
  log_lvl : Int
deriving DecidableEq

/-- Modelled from the spec: `fr_sbuff_uctx_talloc_t`, the initial and the
maximum size of a talloc backed string buffer. -/
structure fr_sbuff_uctx_talloc_t where
  init : Nat
  max : Nat
deriving DecidableEq

/-- The struct `fr_tls_log_bio_t`.  `sbuff` holds the bytes between the start of
the string buffer and its write position, `logged_m` is the offset of the marker
from the start of the buffer, `bio` is the handle returned by `BIO_new`. -/
structure fr_tls_log_bio_t where
  bio : Nat
  sbuff : List Nat
  tctx : fr_sbuff_uctx_talloc_t
  logged_m : Nat
  request : Option request_t
  type : fr_log_type_t
  lvl : Int
  file : String
  line : Int
deriving DecidableEq

/-- The payload of a log record: a boxed byte string printed with `%pV`, or a
formatted C string. -/
inductive log_msg where
  | strvalue (bytes : List Nat)
  | text (s : String)
deriving DecidableEq

/-- One call into the host logging facility.  The constructors are the entry
points used by `log.c`; `fr_log_dst` is the call `fr_log(LOG_DST, ...)` of the
certificate printer, whose second argument is a debug level. -/
inductive log_event where
  | log_request (type : fr_log_type_t) (lvl : Int) (request : request_t) (msg : log_msg)
  | log_request_error (type : fr_log_type_t) (lvl : Int) (request : request_t) (msg : log_msg)
  | fr_log (type : fr_log_type_t) (msg : log_msg)
  | fr_log_dst (lvl : Int) (msg : log_msg)
  | REDEBUG (request : request_t) (msg : String)
  | RERROR (request : request_t) (msg : String)
  | ERROR (msg : String)
deriving DecidableEq

/-- The two thread local log BIOs, and the next handle `BIO_new` hands out. -/
structure thread_state where
  request_log_bio : Option fr_tls_log_bio_t
  global_log_bio : Option fr_tls_log_bio_t
  next_bio : Nat
deriving DecidableEq

/-! ## String buffer helpers (`util/sbuff.c`, not part of the sources) -/

/-- Modelled from the spec: `fr_sbuff_in_bstrncpy`.  The bytes are appended when
the buffer can grow to hold them within its maximum size; otherwise the append
is refused and the buffer is left as it was. -/
def fr_sbuff_in_bstrncpy (tctx : fr_sbuff_uctx_talloc_t) (sbuff inp : List Nat) : List Nat :=
  if sbuff.length + inp.length ≤ tctx.max then sbuff ++ inp else sbuff

/-- Modelled from the spec: `fr_sbuff_behind`, how many bytes the marker is
behind the write position of its buffer (zero when it is not behind). -/
def fr_sbuff_behind (sbuff : List Nat) (m : Nat) : Nat :=
  sbuff.length - m

/-- The libc `memchr`: offset of the first byte equal to `c` among the first `n`
bytes, if there is one. -/
def memchr : List Nat → Nat → Nat → Option Nat
  | [], _, _ => none
  | _ :: _, _, 0 => none
  | b :: bs, c, n + 1 => if b = c then some 0 else (memchr bs c n).map (· + 1)

/-- Modelled from the spec: `fr_sbuff_shift`.  Discards bytes from the front of
the buffer, at most as many as are before the write position and before the
marker, and moves the marker down by the same amount. -/
def fr_sbuff_shift (sbuff : List Nat) (m : Nat) (shift : Nat) : List Nat × Nat :=
  let k := min shift (min sbuff.length m)
  (sbuff.drop k, m - k)

/-- Modelled from the spec: `fr_sbuff_reset_talloc`, which clears the data and
returns the buffer to its initial size. -/
def fr_sbuff_reset_talloc (_sbuff : List Nat) : List Nat := []

/-! ## The write callbacks -/

/-- The `while` loop of `tls_log_request_bio_write_cb` (lines 434-452); `func`
is the logging function picked before the loop. -/
def tls_log_request_bio_write_cb_loop
    (func : fr_log_type_t → Int → request_t → log_msg → log_event) (request : request_t) :
    Nat → fr_tls_log_bio_t → List log_event → Except fault (fr_tls_log_bio_t × List log_event)
  | 0, _, _ => .error .out_of_fuel
  | fuel + 1, lb, out =>
    if fr_sbuff_behind lb.sbuff lb.logged_m = 0 then .ok (lb, out) else
    match memchr (lb.sbuff.drop lb.logged_m) NL (lb.sbuff.length - lb.logged_m) with
    | none => .ok (lb, out)
    | some le =>
      let out1 :=
        if le > 0 then
          out ++ [func lb.type lb.lvl request
            (log_msg.strvalue ((lb.sbuff.drop lb.logged_m).take le))]
        else out
      tls_log_request_bio_write_cb_loop func request fuel
        { lb with logged_m := lb.logged_m + le + 1 } out1

/-- The function `tls_log_request_bio_write_cb` (lines 408-460): the new state
of the log BIO, the records emitted, and the value returned.  The loop gets
one unit of fuel for every byte the marker is behind, and one more. -/
def tls_log_request_bio_write_cb (lb : fr_tls_log_bio_t) (inp : List Nat) :
    Except fault (fr_tls_log_bio_t × List log_event × Int) :=
  match lb.request with
  | none => .error .abort
  | some request =>
    let func : fr_log_type_t → Int → request_t → log_msg → log_event :=
      if lb.type = .L_ERR ∨ lb.type = .L_DBG_ERR ∨ lb.type = .L_DBG_ERR_REQ then
        log_event.log_request_error
      else log_event.log_request
    let lb1 := { lb with sbuff := fr_sbuff_in_bstrncpy lb.tctx lb.sbuff inp }
    match tls_log_request_bio_write_cb_loop func request
        (fr_sbuff_behind lb1.sbuff lb1.logged_m + 1) lb1 [] with
    | .error e => .error e
    | .ok (lb2, out) =>
      let r := fr_sbuff_shift lb2.sbuff lb2.logged_m lb2.logged_m
      .ok ({ lb2 with sbuff := r.1, logged_m := r.2 }, out, (inp.length : Int))

/-- The `while` loop of `tls_log_global_bio_write_cb` (lines 497-516). -/
def tls_log_global_bio_write_cb_loop (fr_debug_lvl : Int) :
    Nat → fr_tls_log_bio_t → List log_event → Except fault (fr_tls_log_bio_t × List log_event)
  | 0, _, _ => .error .out_of_fuel
  | fuel + 1, lb, out =>
    if fr_sbuff_behind lb.sbuff lb.logged_m = 0 then .ok (lb, out) else
    match memchr (lb.sbuff.drop lb.logged_m) NL (lb.sbuff.length - lb.logged_m) with
    | none => .ok (lb, out)
    | some le =>
      let out1 :=
        if le > 0 then
          if fr_debug_lvl ≥ lb.lvl then
            out ++ [log_event.fr_log lb.type
              (log_msg.strvalue ((lb.sbuff.drop lb.logged_m).take le))]
          else out
        else out
      tls_log_global_bio_write_cb_loop fr_debug_lvl fuel
        { lb with logged_m := lb.logged_m + le + 1 } out1

/-- The function `tls_log_global_bio_write_cb` (lines 482-524). -/
def tls_log_global_bio_write_cb (fr_debug_lvl : Int) (lb : fr_tls_log_bio_t) (inp : List Nat) :
    Except fault (fr_tls_log_bio_t × List log_event × Int) :=
  let lb1 := { lb with sbuff := fr_sbuff_in_bstrncpy lb.tctx lb.sbuff inp }
  match tls_log_global_bio_write_cb_loop fr_debug_lvl
      (fr_sbuff_behind lb1.sbuff lb1.logged_m + 1) lb1 [] with
  | .error e => .error e
  | .ok (lb2, out) =>
    let r := fr_sbuff_shift lb2.sbuff lb2.logged_m lb2.logged_m
    .ok ({ lb2 with sbuff := r.1, logged_m := r.2 }, out, (inp.length : Int))

/-! ## Acquiring the thread local log BIOs -/

/-- The function `_fr_tls_request_log_bio` (lines 565-596): the handle returned
and the thread state afterwards. -/
def _fr_tls_request_log_bio (file : String) (line : Int) (request : Option request_t)
    (type : fr_log_type_t) (lvl : Int) (ts : thread_state) : Nat × thread_state :=
  match ts.request_log_bio with
  | none =>
    let lb : fr_tls_log_bio_t :=
      { bio := ts.next_bio, sbuff := [], tctx := { init := 1024, max := 10 * 1024 },
        logged_m := 0, request := request, type := type, lvl := lvl, file := file, line := line }
    (lb.bio, { ts with request_log_bio := some lb, next_bio := ts.next_bio + 1 })
  | some rlb =>
    let rlb1 := { rlb with logged_m := 0 }
    let rlb2 := { rlb1 with sbuff := fr_sbuff_reset_talloc rlb1.sbuff }
    let rlb3 := { rlb2 with request := request, type := type, lvl := lvl, file := file, line := line }
    (rlb3.bio, { ts with request_log_bio := some rlb3 })

/-- The function `_fr_tls_global_log_bio` (lines 612-641).  On the second and
later calls the buffer that is reset (line 634) is the one of `request_log_bio`. -/
def _fr_tls_global_log_bio (file : String) (line : Int)
    (type : fr_log_type_t) (lvl : Int) (ts : thread_state) : Except fault (Nat × thread_state) :=
  match ts.global_log_bio with
  | none =>
    let lb : fr_tls_log_bio_t :=
      { bio := ts.next_bio, sbuff := [], tctx := { init := 1024, max := 10 * 1024 },
        logged_m := 0, request := none, type := type, lvl := lvl, file := file, line := line }
    .ok (lb.bio, { ts with global_log_bio := some lb, next_bio := ts.next_bio + 1 })
  | some glb =>
    let glb1 := { glb with logged_m := 0 }
    match ts.request_log_bio with
    | none => .error .null_deref
    | some rlb =>
      let rlb1 := { rlb with sbuff := fr_sbuff_reset_talloc rlb.sbuff }
      let glb2 := { glb1 with type := type, lvl := lvl, file := file, line := line }
      .ok (glb2.bio, { ts with request_log_bio := some rlb1, global_log_bio := some glb2 })

/-- The function `tls_log_request_bio_puts_cb` (lines 469-472); `strlen` stops at
the first NUL byte. -/
def tls_log_request_bio_puts_cb (lb : fr_tls_log_bio_t) (inp : List Nat) :
    Except fault (fr_tls_log_bio_t × List log_event × Int) :=
  tls_log_request_bio_write_cb lb (inp.takeWhile (fun b => b ≠ 0))

/-- The function `tls_log_global_bio_puts_cb` (lines 533-536). -/
def tls_log_global_bio_puts_cb (fr_debug_lvl : Int) (lb : fr_tls_log_bio_t) (inp : List Nat) :
    Except fault (fr_tls_log_bio_t × List log_event × Int) :=
  tls_log_global_bio_write_cb fr_debug_lvl lb (inp.takeWhile (fun b => b ≠ 0))

/-! ## The OpenSSL error queue and its drainers -/

/-- One record of the OpenSSL error queue. -/
structure err_record where
  code : Nat
  file : String
  line : Int
  data : String
  flags : Nat
deriving DecidableEq

/-- The OpenSSL flag telling that the data of an error record is a string. -/
def ERR_TXT_STRING : Nat := 2

/-- The local variables `file`, `line`, `data` and `flags` of the drainers. -/
structure err_locals where
  file : String
  line : Int
  data : Option String
  flags : Nat
deriving DecidableEq

/-- The OpenSSL call `ERR_get_error_line_data`: pops the oldest record and
fills the out parameters; returns 0 and leaves them alone on an empty queue. -/
def ERR_get_error_line_data (q : List err_record) (l : err_locals) :
    Nat × err_locals × List err_record :=
  match q with
  | [] => (0, l, [])
  | e :: q1 => (e.code, { file := e.file, line := e.line, data := some e.data, flags := e.flags }, q1)

/-- The OpenSSL call `ERR_peek_error`: the code of the oldest record, 0 on an
empty queue; the queue is not changed. -/
def ERR_peek_error (q : List err_record) : Nat :=
  match q with
  | [] => 0
  | e :: _ => e.code

/-- What the drainers read from their surroundings: the global debug level and
the OpenSSL translation `ERR_error_string_n` of an error code into text. -/
structure log_env where
  fr_debug_lvl : Int
  ERR_error_string_n : Nat → String

/-- Modelled from the spec: the guard `DEBUG_ENABLED3` (declared outside the
sources), the verbose diagnostic level 3 of the global debug level. -/
def DEBUG_ENABLED3 (env : log_env) : Bool := decide (3 ≤ env.fr_debug_lvl)

/-- Modelled from the spec: the guard `RDEBUG_ENABLED3` (declared outside the
sources), the verbose diagnostic level 3 of the request. -/
def RDEBUG_ENABLED3 (request : request_t) : Bool := decide (3 ≤ request.log_lvl)

/-- The test `(request && RDEBUG_ENABLED3) || DEBUG_ENABLED3` of lines 157, 187. -/
def extra_verbose (env : log_env) (request : Option request_t) : Bool :=
  (match request with
   | some r => RDEBUG_ENABLED3 r
   | none => false) || DEBUG_ENABLED3 env

/-- Modelled from the spec: `ROPTIONAL(_l_request, _l_global, fmt, ...)` logs
through the request when there is one and globally otherwise. -/
def ROPTIONAL (request : Option request_t) (l_request : request_t → String → log_event)
    (l_global : String → log_event) (s : String) : log_event :=
  match request with
  | some r => l_request r s
  | none => l_global s

/-- The tail `"%c%s"` with the arguments `data ? ':' : '\0', data ? data : ""`:
a NUL character ends the C string. -/
def fmt_c_s (data : Option String) : String :=
  match data with
  | some d => ":" ++ d
  | none => ""

/-- The `do ... while` loop of `fr_tls_log_error_va` (lines 182-195).  The call
of `ERR_get_error_line_data` in the loop condition is the match on the queue. -/
def fr_tls_log_error_va_loop (env : log_env) (request : Option request_t) :
    List err_record → Nat → err_locals → Int → List log_event →
      Int × List log_event × List err_record
  | q, error, l, in_stack, out =>
    let data := if l.flags &&& ERR_TXT_STRING = 0 then none else l.data
    let buffer := env.ERR_error_string_n error
    let ev :=
      if extra_verbose env request then
        ROPTIONAL request .REDEBUG .ERROR
          (l.file ++ "[" ++ toString l.line ++ "]:" ++ buffer ++ fmt_c_s data)
      else
        ROPTIONAL request .REDEBUG .ERROR (buffer ++ fmt_c_s data)
    match q with
    | [] => (in_stack + 1, out ++ [ev], [])
    | e :: q1 =>
      if e.code = 0 then (in_stack + 1, out ++ [ev], q1)
      else
        fr_tls_log_error_va_loop env request q1 e.code
          { file := e.file, line := e.line, data := some e.data, flags := e.flags }
          (in_stack + 1) (out ++ [ev])

/-- The function `fr_tls_log_error_va` (lines 127-198): the value returned, the
records emitted, and the error queue afterwards.  `msg` is the message already
rendered by `talloc_vasprintf`, absent when the caller passes NULL. -/
def fr_tls_log_error_va (env : log_env) (request : Option request_t) (msg : Option String)
    (q : List err_record) : Int × List log_event × List err_record :=
  let r := ERR_get_error_line_data q { file := "", line := 0, data := none, flags := 0 }
  let error := r.1
  let l := r.2.1
  let q1 := r.2.2
  let l1 := if l.flags &&& ERR_TXT_STRING = 0 then { l with data := none } else l
  match msg with
  | some p =>
    if error ≠ 0 ∧ ERR_peek_error q1 = 0 then
      let buffer := env.ERR_error_string_n error
      let ev :=
        if extra_verbose env request then
          ROPTIONAL request .REDEBUG .ERROR
            (p ++ ": " ++ l1.file ++ "[" ++ toString l1.line ++ "]:" ++ buffer ++ fmt_c_s l1.data)
        else
          ROPTIONAL request .REDEBUG .ERROR (p ++ ": " ++ buffer ++ fmt_c_s l1.data)
      (1, [ev], q1)
    else
      let out := [ROPTIONAL request .RERROR .ERROR p]
      if error = 0 then (0, out, q1)
      else fr_tls_log_error_va_loop env request q1 error l1 0 out
  | none =>
    if error = 0 then (0, [], q1)
    else fr_tls_log_error_va_loop env request q1 error l1 0 []

/-- The function `fr_tls_log_error` (lines 291-301). -/
def fr_tls_log_error (env : log_env) (request : Option request_t) (msg : Option String)
    (q : List err_record) : Int × List log_event × List err_record :=
  fr_tls_log_error_va env request msg q

/-- The OpenSSL classifications returned by `SSL_get_error`. -/
def SSL_ERROR_NONE : Int := 0
/-- See `SSL_ERROR_NONE`. -/
def SSL_ERROR_SSL : Int := 1
/-- See `SSL_ERROR_NONE`. -/
def SSL_ERROR_WANT_READ : Int := 2
/-- See `SSL_ERROR_NONE`. -/
def SSL_ERROR_WANT_WRITE : Int := 3
/-- See `SSL_ERROR_NONE`. -/
def SSL_ERROR_WANT_X509_LOOKUP : Int := 4
/-- See `SSL_ERROR_NONE`. -/
def SSL_ERROR_SYSCALL : Int := 5
/-- See `SSL_ERROR_NONE`. -/
def SSL_ERROR_ZERO_RETURN : Int := 6

/-- Modelled from the spec: a TLS session (`fr_tls_session_t`, declared outside
the sources) is consumed only through `SSL_get_error(session->ssl, ret)`, its
classification of the return code of an I/O call. -/
structure fr_tls_session_t where
  SSL_get_error : Int → Int

/-- The function `fr_tls_log_io_error` (lines 223-280): the value returned, the
records emitted, and the error queue afterwards. -/
def fr_tls_log_io_error (env : log_env) (request : Option request_t)
    (session : fr_tls_session_t) (ret : Int) (msg : Option String) (q : List err_record) :
    Int × List log_event × List err_record :=
  let r : List log_event × List err_record :=
    if ERR_peek_error q ≠ 0 then
      ((fr_tls_log_error_va env request msg q).2.1, (fr_tls_log_error_va env request msg q).2.2)
    else ([], q)
  let error := session.SSL_get_error ret
  if error = SSL_ERROR_NONE ∨ error = SSL_ERROR_WANT_READ ∨ error = SSL_ERROR_WANT_WRITE ∨
      error = SSL_ERROR_WANT_X509_LOOKUP ∨ error = SSL_ERROR_ZERO_RETURN then
    (0, r.1, r.2)
  else if error = SSL_ERROR_SYSCALL then
    (-1, r.1 ++ [ROPTIONAL request .REDEBUG .ERROR
      ("System call (I/O) error (" ++ toString ret ++ ")")], r.2)
  else if error = SSL_ERROR_SSL then
    (-1, r.1 ++ [ROPTIONAL request .REDEBUG .ERROR
      ("TLS protocol error (" ++ toString ret ++ ")")], r.2)
  else
    (-1, r.1 ++ [ROPTIONAL request .REDEBUG .ERROR
      ("TLS session error " ++ toString error ++ " (" ++ toString ret ++ ")")], r.2)

/-- Modelled from the spec: `fr_strerror_printf` replaces the content of the
error-message slot by one primary message. -/
def fr_strerror_printf (_slot : List String) (s : String) : List String := [s]

/-- Modelled from the spec: `fr_strerror_printf_push` adds one stacked entry
after the entries the error-message slot already holds. -/
def fr_strerror_printf_push (slot : List String) (s : String) : List String := slot ++ [s]

/-- The `while` loop of `tls_strerror_vasprintf` (lines 360-366).  The call of
`ERR_get_error_line_data` in the loop condition is the match on the queue. -/
def tls_strerror_vasprintf_loop (env : log_env) :
    List err_record → Int → List String → Int × List String × List err_record
  | [], drained, slot => (drained, slot, [])
  | e :: q1, drained, slot =>
    if e.code = 0 then (drained, slot, q1)
    else
      let data := if e.flags &&& ERR_TXT_STRING = 0 then none else some e.data
      let buffer := env.ERR_error_string_n e.code
      tls_strerror_vasprintf_loop env q1 (drained + 1)
        (fr_strerror_printf_push slot (buffer ++ fmt_c_s data))

/-- The function `tls_strerror_vasprintf` (lines 313-369): the value returned,
the error-message slot and the error queue afterwards. -/
def tls_strerror_vasprintf (env : log_env) (msg : Option String) (q : List err_record)
    (slot : List String) : Int × List String × List err_record :=
  let r := ERR_get_error_line_data q { file := "", line := 0, data := none, flags := 0 }
  let error := r.1
  let l := r.2.1
  let q1 := r.2.2
  let data := if l.flags &&& ERR_TXT_STRING = 0 then none else l.data
  match msg with
  | some p =>
    if error ≠ 0 then
      let buffer := env.ERR_error_string_n error
      tls_strerror_vasprintf_loop env q1 1
        (fr_strerror_printf slot (p ++ ": " ++ buffer ++ fmt_c_s data))
    else
      tls_strerror_vasprintf_loop env q1 0 (fr_strerror_printf slot p)
  | none =>
    if error ≠ 0 then
      let buffer := env.ERR_error_string_n error
      tls_strerror_vasprintf_loop env q1 1 (fr_strerror_printf slot (buffer ++ fmt_c_s data))
    else (0, slot, q1)

/-- The function `fr_tls_log_strerror_printf` (lines 380-390). -/
def fr_tls_log_strerror_printf (env : log_env) (msg : Option String) (q : List err_record)
    (slot : List String) : Int × List String × List err_record :=
  tls_strerror_vasprintf env msg q slot

/-- The function `tls_log_clear` (lines 395-398): `ERR_get_error` pops one
record per iteration until it returns 0. -/
def tls_log_clear : List err_record → List err_record
  | [] => []
  | e :: q => if e.code = 0 then q else tls_log_clear q

/-! ## The certificate chain printer -/

/-- Modelled from the spec: of a certificate only the display line is used, the
key type (`fr_tls_utils_x509_pkey_type`) and the subject (`X509_NAME_oneline`). -/
structure X509 where
  pkey_type : String
  subject : String
deriving DecidableEq

/-- The function `_tls_ctx_print_cert_line` (lines 77-92). -/
def _tls_ctx_print_cert_line (fr_debug_lvl : Int) (request : Option request_t) (index : Int)
    (cert : X509) : log_event :=
  match request with
  | some r =>
    .log_request .L_DBG fr_debug_lvl r
      (.text ("[" ++ toString index ++ "] " ++ cert.pkey_type ++ " " ++ cert.subject))
  | none =>
    .fr_log_dst fr_debug_lvl
      (.text ("[" ++ toString index ++ "] " ++ cert.pkey_type ++ " " ++ cert.subject))

/-- The OpenSSL call `sk_X509_num`: the number of certificates, -1 for NULL. -/
def sk_X509_num (chain : Option (List X509)) : Int :=
  match chain with
  | none => -1
  | some l => (l.length : Int)

/-- The `for` loop of `_fr_tls_log_certificate_chain` (lines 109-111), counting
`i` down to 1; `sk_X509_value` gives NULL outside the chain. -/
def _fr_tls_log_certificate_chain_loop (fr_debug_lvl : Int) (request : Option request_t)
    (chain : List X509) : Nat → List log_event → Except fault (List log_event)
  | 0, out => .ok out
  | i + 1, out =>
    match chain.get? i with
    | none => .error .null_deref
    | some c =>
      _fr_tls_log_certificate_chain_loop fr_debug_lvl request chain i
        (out ++ [_tls_ctx_print_cert_line fr_debug_lvl request ((i : Int) + 1) c])

/-- The function `_fr_tls_log_certificate_chain` (lines 104-113). -/
def _fr_tls_log_certificate_chain (fr_debug_lvl : Int) (request : Option request_t)
    (chain : Option (List X509)) (cert : X509) : Except fault (List log_event) :=
  let i0 := sk_X509_num chain
  match _fr_tls_log_certificate_chain_loop fr_debug_lvl request (chain.getD [])
      i0.toNat [] with
  | .error e => .error e
  | .ok out =>
    let i := if i0 > 0 then 0 else i0
    .ok (out ++ [_tls_ctx_print_cert_line fr_debug_lvl request i cert])

/-! ## Reference definitions for the line aggregator -/

/-- The lines of a byte string in the words of the spec: the segments obtained
by splitting at each line terminator, without the final segment (which has no
terminator) and without the empty segments. -/
def spec_lines (s : List Nat) : List (List Nat) :=
  ((s.splitOn NL).dropLast).filter (fun seg => decide (seg ≠ []))

/-- The unterminated tail of a byte string: the bytes after its last line
terminator, all of it when it has none. -/
def spec_tail (s : List Nat) : List Nat :=
  (s.splitOn NL).getLastD []

/-- A sequence of write calls on the request log BIO, one per fragment: the
state afterwards and the records emitted over all the calls, in order. -/
def feed_request (lb : fr_tls_log_bio_t) :
    List (List Nat) → Except fault (fr_tls_log_bio_t × List log_event)
  | [] => .ok (lb, [])
  | f :: fs =>
    match tls_log_request_bio_write_cb lb f with
    | .error e => .error e
    | .ok (lb1, out1, _) =>
      match feed_request lb1 fs with
      | .error e => .error e
      | .ok (lb2, out2) => .ok (lb2, out1 ++ out2)

/-- A sequence of write calls on the global log BIO, one per fragment. -/
def feed_global (fr_debug_lvl : Int) (lb : fr_tls_log_bio_t) :
    List (List Nat) → Except fault (fr_tls_log_bio_t × List log_event)
  | [] => .ok (lb, [])
  | f :: fs =>
    match tls_log_global_bio_write_cb fr_debug_lvl lb f with
    | .error e => .error e
    | .ok (lb1, out1, _) =>
      match feed_global fr_debug_lvl lb1 fs with
      | .error e => .error e
      | .ok (lb2, out2) => .ok (lb2, out1 ++ out2)

/-- The pending data never exceeds `max`: at every write of the sequence, the
unterminated tail buffered so far together with the bytes written fits. -/
def pending_fits (max : Nat) : List Nat → List (List Nat) → Prop
  | _, [] => True
  | t, f :: fs => t.length + f.length ≤ max ∧ pending_fits max (spec_tail (t ++ f)) fs

/-- The record the request log BIO emits for one line. -/
def request_line (lb : fr_tls_log_bio_t) (request : request_t) (seg : List Nat) : log_event :=
  if lb.type = .L_ERR ∨ lb.type = .L_DBG_ERR ∨ lb.type = .L_DBG_ERR_REQ then
    .log_request_error lb.type lb.lvl request (.strvalue seg)
  else .log_request lb.type lb.lvl request (.strvalue seg)

/-- The records the global log BIO emits for a list of lines: one per line when
the global debug level reaches the level of the BIO, none otherwise. -/
def global_lines (fr_debug_lvl : Int) (lb : fr_tls_log_bio_t) (segs : List (List Nat)) :
    List log_event :=
  if fr_debug_lvl ≥ lb.lvl then segs.map (fun seg => .fr_log lb.type (.strvalue seg)) else []

/-- The log BIO a first acquisition creates (lines 571-583). -/
def fresh_log_bio (bio : Nat) (file : String) (line : Int) (request : Option request_t)
    (type : fr_log_type_t) (lvl : Int) : fr_tls_log_bio_t :=
  { bio := bio, sbuff := [], tctx := { init := 1024, max := 10 * 1024 }, logged_m := 0,
    request := request, type := type, lvl := lvl, file := file, line := line }

/-! ## Reference definitions for the error drainers -/

/-- An error queue as OpenSSL keeps it: no record has the code 0, the value the
pop and peek calls return for an empty queue. -/
def codes_nonzero (q : List err_record) : Prop := ∀ e ∈ q, e.code ≠ 0

instance (q : List err_record) : Decidable (codes_nonzero q) := by
  unfold codes_nonzero
  infer_instance

/-- The description of one error record in the words of the spec: the text of
its code, followed by its data when the data is a string. -/
def spec_error_desc (env : log_env) (e : err_record) : String :=
  env.ERR_error_string_n e.code ++
    (if e.flags &&& ERR_TXT_STRING = 0 then "" else ":" ++ e.data)

/-- The text of the record of one error: its description, behind the source
file and line of the error when `verbose` holds. -/
def spec_error_text (env : log_env) (verbose : Bool) (e : err_record) : String :=
  if verbose then e.file ++ "[" ++ toString e.line ++ "]:" ++ spec_error_desc env e
  else spec_error_desc env e

/-- The records of drain-and-log in the words of the spec, by the number of
queued errors and the presence of a message `P`. -/
def spec_drain_records (env : log_env) (request : Option request_t) :
    Option String → List err_record → List log_event
  | none, q =>
    q.map (fun e => ROPTIONAL request .REDEBUG .ERROR
      (spec_error_text env (extra_verbose env request) e))
  | some p, [] => [ROPTIONAL request .RERROR .ERROR p]
  | some p, [e] =>
    [ROPTIONAL request .REDEBUG .ERROR
      (p ++ ": " ++ spec_error_text env (extra_verbose env request) e)]
  | some p, e1 :: e2 :: q =>
    ROPTIONAL request .RERROR .ERROR p ::
      (e1 :: e2 :: q).map (fun e => ROPTIONAL request .REDEBUG .ERROR
        (spec_error_text env (extra_verbose env request) e))

/-- The classified message `fr_tls_log_io_error` adds for a session error
classification `e` and a return code `ret`: none for the five transient
classifications, one for every other value. -/
def spec_classified (request : Option request_t) (e ret : Int) : List log_event :=
  if e = SSL_ERROR_NONE ∨ e = SSL_ERROR_WANT_READ ∨ e = SSL_ERROR_WANT_WRITE ∨
      e = SSL_ERROR_WANT_X509_LOOKUP ∨ e = SSL_ERROR_ZERO_RETURN then []
  else if e = SSL_ERROR_SYSCALL then
    [ROPTIONAL request .REDEBUG .ERROR ("System call (I/O) error (" ++ toString ret ++ ")")]
  else if e = SSL_ERROR_SSL then
    [ROPTIONAL request .REDEBUG .ERROR ("TLS protocol error (" ++ toString ret ++ ")")]
  else
    [ROPTIONAL request .REDEBUG .ERROR
      ("TLS session error " ++ toString e ++ " (" ++ toString ret ++ ")")]

/-! ## Reference definitions for the invariants of the log BIOs -/

/-- The head of one iteration of the scan loops (lines 434-440 and 497-503):
`none` when the loop exits, because the marker is not behind or no line
terminator is left, and otherwise the offset `le` of the next terminator from
the marker.  The iteration then moves the marker to `logged_m + le + 1`. -/
def scan_step (lb : fr_tls_log_bio_t) : Option Nat :=
  if fr_sbuff_behind lb.sbuff lb.logged_m = 0 then none
  else memchr (lb.sbuff.drop lb.logged_m) NL (lb.sbuff.length - lb.logged_m)

/-- The bound of the spec: `0 ≤ consumed_cursor ≤ len(buffer) ≤ max_capacity`,
with the maximum of 10 KiB set when the BIO is created. -/
def bio_bound (lb : fr_tls_log_bio_t) : Prop :=
  lb.logged_m ≤ lb.sbuff.length ∧ lb.sbuff.length ≤ lb.tctx.max ∧ lb.tctx.max = 10 * 1024

/-- The steady state between two calls: the cursor is at offset 0 and the buffer
holds no line terminator. -/
def bio_steady (lb : fr_tls_log_bio_t) : Prop :=
  lb.logged_m = 0 ∧ NL ∉ lb.sbuff

/-- The states of a thread reachable from its start, where neither log BIO
exists, by acquiring the request or the global log BIO and by writing to a log
BIO that exists; the global debug level may differ from one write to the next. -/
inductive thread_reachable : thread_state → Prop where
  | start (n : Nat) : thread_reachable ⟨none, none, n⟩
  | request_acquire (ts : thread_state) (file : String) (line : Int)
      (request : Option request_t) (type : fr_log_type_t) (lvl : Int) :
      thread_reachable ts →
      thread_reachable (_fr_tls_request_log_bio file line request type lvl ts).2
  | global_acquire (ts ts1 : thread_state) (file : String) (line : Int)
      (type : fr_log_type_t) (lvl : Int) (bio : Nat) :
      thread_reachable ts →
      _fr_tls_global_log_bio file line type lvl ts = .ok (bio, ts1) →
      thread_reachable ts1
  | request_write (ts : thread_state) (lb lb1 : fr_tls_log_bio_t) (inp : List Nat)
      (out : List log_event) (n : Int) :
      thread_reachable ts →
      ts.request_log_bio = some lb →
      tls_log_request_bio_write_cb lb inp = .ok (lb1, out, n) →
      thread_reachable { ts with request_log_bio := some lb1 }
  | global_write (ts : thread_state) (fr_debug_lvl : Int) (lb lb1 : fr_tls_log_bio_t)
      (inp : List Nat) (out : List log_event) (n : Int) :
      thread_reachable ts →
      ts.global_log_bio = some lb →
      tls_log_global_bio_write_cb fr_debug_lvl lb inp = .ok (lb1, out, n) →
      thread_reachable { ts with global_log_bio := some lb1 }

/-- The state of a log BIO after `j` iterations of the scan loop that did not
exit; `none` when the loop exits before. -/
def scan_after : Nat → fr_tls_log_bio_t → Option fr_tls_log_bio_t
  | 0, lb => some lb
  | j + 1, lb =>
    match scan_step lb with
    | none => none
    | some le => scan_after j { lb with logged_m := lb.logged_m + le + 1 }

/-- The line a record of a log BIO carries, whatever the entry point. -/
def line_payload : log_event → Option log_msg
  | .log_request _ _ _ m => some m
  | .log_request_error _ _ _ m => some m
  | .fr_log _ m => some m
  | .fr_log_dst _ m => some m
  | _ => none

/-- The content of the error-message slot after drain-to-buffer in the words of
the spec: the first combined message, then one stacked entry per remaining
error; the slot is left alone when there is neither a message nor an error. -/
def spec_slot (env : log_env) (msg : Option String) (q : List err_record)
    (slot : List String) : List String :=
  match msg, q with
  | some p, e :: q1 => (p ++ ": " ++ spec_error_desc env e) :: q1.map (spec_error_desc env)
  | some p, [] => [p]
  | none, e :: q1 => spec_error_desc env e :: q1.map (spec_error_desc env)
  | none, [] => slot

/-! ## Reference definition for the certificate chain printer -/

/-- The trace of a chain that is present, in the words of the claim: the
certificates of the chain from the last to the first, `chain[j]` labelled
`j + 1`, and last the leaf certificate labelled 0. -/
def spec_chain_records (fr_debug_lvl : Int) (request : Option request_t) (chain : List X509)
    (cert : X509) : List log_event :=
  (chain.enum.map (fun p =>
      _tls_ctx_print_cert_line fr_debug_lvl request ((p.1 : Int) + 1) p.2)).reverse ++
    [_tls_ctx_print_cert_line fr_debug_lvl request 0 cert]

/-! ## Lemmas on splitting at line terminators -/

theorem memchr_none_iff (l : List Nat) (c : Nat) : memchr l c l.length = none ↔ c ∉ l := by
  induction l with
  | nil => simp [memchr]
  | cons b bs ih =>
    simp only [memchr, List.length_cons, List.mem_cons, not_or]
    by_cases hb : b = c
    · simp [hb]
    · simp only [hb, if_false, Option.map_eq_none', ih]
      constructor
      · intro h; exact ⟨fun h1 => hb h1.symm, h⟩
      · intro h; exact h.2

theorem memchr_some_split (l : List Nat) (c k : Nat) (h : memchr l c l.length = some k) :
    ∃ post, l = l.take k ++ c :: post ∧ c ∉ l.take k ∧ (l.take k).length = k ∧
      l.drop (k + 1) = post := by
  induction l generalizing k with
  | nil => simp [memchr] at h
  | cons b bs ih =>
    simp only [memchr, List.length_cons] at h
    by_cases hb : b = c
    · simp only [hb, if_true, Option.some.injEq] at h
      subst h
      exact ⟨bs, by simp [hb], by simp, by simp, by simp⟩
    · simp only [hb, if_false, Option.map_eq_some'] at h
      obtain ⟨j, hj, rfl⟩ := h
      obtain ⟨post, h1, h2, h3, h4⟩ := ih j hj
      refine ⟨post, ?_, ?_, ?_, ?_⟩
      · simp only [List.take_succ_cons, List.cons_append]
        rw [← h1]
      · simp only [List.take_succ_cons, List.mem_cons, not_or]
        exact ⟨fun h => hb h.symm, h2⟩
      · simp only [List.take_succ_cons, List.length_cons, h3]
      · simpa using h4

theorem splitOn_of_not_mem (t : List Nat) (h : NL ∉ t) : t.splitOn NL = [t] := by
  unfold List.splitOn
  apply List.splitOnP_eq_single
  intro x hx hp
  have : x = NL := by simpa using hp
  exact h (this ▸ hx)

theorem splitOn_first (pre post : List Nat) (h : NL ∉ pre) :
    (pre ++ NL :: post).splitOn NL = pre :: post.splitOn NL := by
  unfold List.splitOn
  apply List.splitOnP_first
  · intro x hx hp
    have : x = NL := by simpa using hp
    exact h (this ▸ hx)
  · simp

theorem splitOn_ne_nil (s : List Nat) : s.splitOn NL ≠ [] := by
  unfold List.splitOn
  exact List.splitOnP_ne_nil _ _

theorem spec_lines_of_not_mem (t : List Nat) (h : NL ∉ t) : spec_lines t = [] := by
  simp [spec_lines, splitOn_of_not_mem t h]

theorem spec_tail_of_not_mem (t : List Nat) (h : NL ∉ t) : spec_tail t = t := by
  simp [spec_tail, splitOn_of_not_mem t h]

theorem spec_lines_first (pre post : List Nat) (h : NL ∉ pre) :
    spec_lines (pre ++ NL :: post) = (if pre = [] then [] else [pre]) ++ spec_lines post := by
  unfold spec_lines
  rw [splitOn_first pre post h]
  obtain ⟨x, xs, hx⟩ := List.exists_cons_of_ne_nil (splitOn_ne_nil post)
  rw [hx, List.dropLast_cons₂, List.filter_cons]
  by_cases hp : pre = [] <;> simp [hp]

theorem spec_tail_first (pre post : List Nat) (h : NL ∉ pre) :
    spec_tail (pre ++ NL :: post) = spec_tail post := by
  unfold spec_tail
  rw [splitOn_first pre post h]
  obtain ⟨x, xs, hx⟩ := List.exists_cons_of_ne_nil (splitOn_ne_nil post)
  rw [hx]
  simp [List.getLastD_cons]

theorem split_cases (s : List Nat) :
    NL ∉ s ∨ ∃ pre post, s = pre ++ NL :: post ∧ NL ∉ pre := by
  cases h : memchr s NL s.length with
  | none => exact Or.inl ((memchr_none_iff s NL).1 h)
  | some k =>
    obtain ⟨post, h1, h2, _, _⟩ := memchr_some_split s NL k h
    exact Or.inr ⟨s.take k, post, h1, h2⟩

theorem split_induction {P : List Nat → Prop} (h0 : ∀ t, NL ∉ t → P t)
    (h1 : ∀ pre post, NL ∉ pre → P post → P (pre ++ NL :: post)) (s : List Nat) : P s := by
  have key : ∀ n, ∀ s : List Nat, s.length = n → P s := by
    intro n
    induction n using Nat.strong_induction_on with
    | _ n ih =>
      intro s hn
      rcases split_cases s with h | ⟨pre, post, rfl, h⟩
      · exact h0 s h
      · exact h1 pre post h (ih post.length (by subst hn; simp; omega) post rfl)
  exact key _ s rfl

theorem spec_tail_not_mem (s : List Nat) : NL ∉ spec_tail s := by
  induction s using split_induction with
  | h0 t h => rw [spec_tail_of_not_mem t h]; exact h
  | h1 pre post h ih => rw [spec_tail_first pre post h]; exact ih

theorem spec_tail_suffix (s : List Nat) : ∃ x, s = x ++ spec_tail s := by
  induction s using split_induction with
  | h0 t h => exact ⟨[], by rw [spec_tail_of_not_mem t h]; rfl⟩
  | h1 pre post h ih =>
    rw [spec_tail_first pre post h]
    obtain ⟨x, hx⟩ := ih
    refine ⟨pre ++ NL :: x, ?_⟩
    rw [List.append_assoc, List.cons_append, ← hx]

theorem spec_tail_length_le (s : List Nat) : (spec_tail s).length ≤ s.length := by
  obtain ⟨x, hx⟩ := spec_tail_suffix s
  have := congrArg List.length hx
  simp only [List.length_append] at this
  omega

theorem spec_lines_append (s f : List Nat) :
    spec_lines (s ++ f) = spec_lines s ++ spec_lines (spec_tail s ++ f) := by
  induction s using split_induction with
  | h0 t h => rw [spec_tail_of_not_mem t h, spec_lines_of_not_mem t h, List.nil_append]
  | h1 pre post h ih =>
    rw [spec_tail_first pre post h, spec_lines_first pre post h, List.append_assoc,
      List.cons_append, spec_lines_first pre (post ++ f) h, ih, List.append_assoc]

theorem spec_tail_append (s f : List Nat) :
    spec_tail (s ++ f) = spec_tail (spec_tail s ++ f) := by
  induction s using split_induction with
  | h0 t h => rw [spec_tail_of_not_mem t h]
  | h1 pre post h ih =>
    rw [spec_tail_first pre post h, List.append_assoc, List.cons_append,
      spec_tail_first pre (post ++ f) h, ih]

theorem drop_length_sub_of_append (b y t : List Nat) (h : b = y ++ t) :
    b.drop (b.length - t.length) = t := by
  subst h
  simp

theorem drop_eq_spec_tail (b : List Nat) (m : Nat) :
    b.drop (b.length - (spec_tail (b.drop m)).length) = spec_tail (b.drop m) := by
  obtain ⟨x, hx⟩ := spec_tail_suffix (b.drop m)
  apply drop_length_sub_of_append b (b.take m ++ x)
  rw [List.append_assoc, ← hx, List.take_append_drop]

/-! ## The scan loops and the write callbacks -/

theorem request_loop_spec (func : fr_log_type_t → Int → request_t → log_msg → log_event)
    (request : request_t) (fuel : Nat) (lb : fr_tls_log_bio_t) (out : List log_event)
    (hm : lb.logged_m ≤ lb.sbuff.length)
    (hf : (lb.sbuff.drop lb.logged_m).length < fuel) :
    tls_log_request_bio_write_cb_loop func request fuel lb out =
      .ok ({ lb with
              logged_m := lb.sbuff.length - (spec_tail (lb.sbuff.drop lb.logged_m)).length },
           out ++ (spec_lines (lb.sbuff.drop lb.logged_m)).map
             (fun seg => func lb.type lb.lvl request (.strvalue seg))) := by
  induction fuel generalizing lb out with
  | zero => omega
  | succ fuel ih =>
    unfold tls_log_request_bio_write_cb_loop
    by_cases hb : fr_sbuff_behind lb.sbuff lb.logged_m = 0
    · have hmm : lb.logged_m = lb.sbuff.length := by
        unfold fr_sbuff_behind at hb; omega
      have hd : lb.sbuff.drop lb.logged_m = [] := by
        rw [hmm]; exact List.drop_length _
      rw [if_pos hb, hd, spec_tail_of_not_mem [] (by simp), spec_lines_of_not_mem [] (by simp)]
      simp only [List.length_nil, Nat.sub_zero, List.map_nil, List.append_nil]
      rw [← hmm]
    · rw [if_neg hb]
      have hlen : lb.sbuff.length - lb.logged_m = (lb.sbuff.drop lb.logged_m).length := by
        rw [List.length_drop]
      rw [hlen]
      cases hmc : memchr (lb.sbuff.drop lb.logged_m) NL (lb.sbuff.drop lb.logged_m).length with
      | none =>
        have hnm := (memchr_none_iff _ NL).1 hmc
        simp only
        rw [spec_tail_of_not_mem _ hnm, spec_lines_of_not_mem _ hnm]
        simp only [List.map_nil, List.append_nil]
        have : lb.sbuff.length - (lb.sbuff.drop lb.logged_m).length = lb.logged_m := by
          rw [List.length_drop]; omega
        rw [this]
      | some k =>
        obtain ⟨post, h1, h2, h3, h4⟩ := memchr_some_split _ NL k hmc
        have hpost : lb.sbuff.drop (lb.logged_m + k + 1) = post := by
          rw [← h4, List.drop_drop]; congr 1
        have hklt : k < (lb.sbuff.drop lb.logged_m).length := by
          have := congrArg List.length h1
          simp only [List.length_append, List.length_cons, h3] at this
          omega
        have hpl : post.length < fuel := by
          have := congrArg List.length h1
          simp only [List.length_append, List.length_cons, h3] at this
          omega
        simp only
        rw [ih _ _ (by simp only; rw [List.length_drop] at hklt; omega)
          (by simp only; rw [hpost]; exact hpl)]
        simp only [hpost]
        have hl : spec_lines (lb.sbuff.drop lb.logged_m) =
            (if (lb.sbuff.drop lb.logged_m).take k = [] then []
              else [(lb.sbuff.drop lb.logged_m).take k]) ++ spec_lines post := by
          conv_lhs => rw [h1]
          exact spec_lines_first _ _ h2
        have ht : spec_tail (lb.sbuff.drop lb.logged_m) = spec_tail post := by
          conv_lhs => rw [h1]
          exact spec_tail_first _ _ h2
        rw [hl, ht]
        by_cases hk : k = 0
        · subst hk
          simp
        · have hk0 : k > 0 := Nat.pos_of_ne_zero hk
          have hne : (lb.sbuff.drop lb.logged_m).take k ≠ [] := by
            intro h
            rw [h] at h3
            simp at h3
            omega
          simp [hk0, hne]

theorem global_loop_spec (fr_debug_lvl : Int) (fuel : Nat) (lb : fr_tls_log_bio_t) (out : List log_event)
    (hm : lb.logged_m ≤ lb.sbuff.length)
    (hf : (lb.sbuff.drop lb.logged_m).length < fuel) :
    tls_log_global_bio_write_cb_loop fr_debug_lvl fuel lb out =
      .ok ({ lb with
              logged_m := lb.sbuff.length - (spec_tail (lb.sbuff.drop lb.logged_m)).length },
           out ++ global_lines fr_debug_lvl lb (spec_lines (lb.sbuff.drop lb.logged_m))) := by
  induction fuel generalizing lb out with
  | zero => omega
  | succ fuel ih =>
    unfold tls_log_global_bio_write_cb_loop
    by_cases hb : fr_sbuff_behind lb.sbuff lb.logged_m = 0
    · have hmm : lb.logged_m = lb.sbuff.length := by
        unfold fr_sbuff_behind at hb; omega
      have hd : lb.sbuff.drop lb.logged_m = [] := by
        rw [hmm]; exact List.drop_length _
      rw [if_pos hb, hd, spec_tail_of_not_mem [] (by simp), spec_lines_of_not_mem [] (by simp)]
      simp only [List.length_nil, Nat.sub_zero, global_lines, List.map_nil, ite_self,
        List.append_nil]
      rw [← hmm]
    · rw [if_neg hb]
      have hlen : lb.sbuff.length - lb.logged_m = (lb.sbuff.drop lb.logged_m).length := by
        rw [List.length_drop]
      rw [hlen]
      cases hmc : memchr (lb.sbuff.drop lb.logged_m) NL (lb.sbuff.drop lb.logged_m).length with
      | none =>
        have hnm := (memchr_none_iff _ NL).1 hmc
        simp only
        rw [spec_tail_of_not_mem _ hnm, spec_lines_of_not_mem _ hnm]
        simp only [global_lines, List.map_nil, ite_self, List.append_nil]
        have : lb.sbuff.length - (lb.sbuff.drop lb.logged_m).length = lb.logged_m := by
          rw [List.length_drop]; omega
        rw [this]
      | some k =>
        obtain ⟨post, h1, h2, h3, h4⟩ := memchr_some_split _ NL k hmc
        have hpost : lb.sbuff.drop (lb.logged_m + k + 1) = post := by
          rw [← h4, List.drop_drop]; congr 1
        have hklt : k < (lb.sbuff.drop lb.logged_m).length := by
          have := congrArg List.length h1
          simp only [List.length_append, List.length_cons, h3] at this
          omega
        have hpl : post.length < fuel := by
          have := congrArg List.length h1
          simp only [List.length_append, List.length_cons, h3] at this
          omega
        simp only
        rw [ih _ _ (by simp only; rw [List.length_drop] at hklt; omega)
          (by simp only; rw [hpost]; exact hpl)]
        simp only [hpost]
        have hl : spec_lines (lb.sbuff.drop lb.logged_m) =
            (if (lb.sbuff.drop lb.logged_m).take k = [] then []
              else [(lb.sbuff.drop lb.logged_m).take k]) ++ spec_lines post := by
          conv_lhs => rw [h1]
          exact spec_lines_first _ _ h2
        have ht : spec_tail (lb.sbuff.drop lb.logged_m) = spec_tail post := by
          conv_lhs => rw [h1]
          exact spec_tail_first _ _ h2
        rw [hl, ht]
        by_cases hk : k = 0
        · subst hk
          simp [global_lines]
        · have hk0 : k > 0 := Nat.pos_of_ne_zero hk
          have hne : (lb.sbuff.drop lb.logged_m).take k ≠ [] := by
            intro h
            rw [h] at h3
            simp at h3
            omega
          by_cases hl : fr_debug_lvl ≥ lb.lvl <;> simp [hk0, hne, hl, global_lines]

theorem shift_after_scan (b : List Nat) (m : Nat) :
    fr_sbuff_shift b (b.length - (spec_tail (b.drop m)).length)
        (b.length - (spec_tail (b.drop m)).length) = (spec_tail (b.drop m), 0) := by
  unfold fr_sbuff_shift
  have h : min (b.length - (spec_tail (b.drop m)).length)
      (min b.length (b.length - (spec_tail (b.drop m)).length)) =
      b.length - (spec_tail (b.drop m)).length := by
    omega
  simp only [h, drop_eq_spec_tail, Nat.sub_self]

theorem request_write_spec (lb : fr_tls_log_bio_t) (request : request_t) (inp : List Nat)
    (hr : lb.request = some request) (hm : lb.logged_m ≤ lb.sbuff.length) :
    tls_log_request_bio_write_cb lb inp =
      .ok ({ lb with
              sbuff := spec_tail ((fr_sbuff_in_bstrncpy lb.tctx lb.sbuff inp).drop lb.logged_m),
              logged_m := 0 },
           (spec_lines ((fr_sbuff_in_bstrncpy lb.tctx lb.sbuff inp).drop lb.logged_m)).map
             (request_line lb request),
           (inp.length : Int)) := by
  have hm1 : lb.logged_m ≤ (fr_sbuff_in_bstrncpy lb.tctx lb.sbuff inp).length := by
    unfold fr_sbuff_in_bstrncpy
    split
    · simp only [List.length_append]; omega
    · exact hm
  unfold tls_log_request_bio_write_cb
  rw [hr]
  simp only
  rw [request_loop_spec _ request _ _ [] (by simpa using hm1)
    (by simp only [fr_sbuff_behind, List.length_drop]; omega)]
  simp only [shift_after_scan, List.nil_append]
  congr 3
  apply List.map_congr_left
  intro seg _
  unfold request_line
  split <;> rfl

theorem global_write_spec (fr_debug_lvl : Int) (lb : fr_tls_log_bio_t) (inp : List Nat)
    (hm : lb.logged_m ≤ lb.sbuff.length) :
    tls_log_global_bio_write_cb fr_debug_lvl lb inp =
      .ok ({ lb with
              sbuff := spec_tail ((fr_sbuff_in_bstrncpy lb.tctx lb.sbuff inp).drop lb.logged_m),
              logged_m := 0 },
           global_lines fr_debug_lvl lb
             (spec_lines ((fr_sbuff_in_bstrncpy lb.tctx lb.sbuff inp).drop lb.logged_m)),
           (inp.length : Int)) := by
  have hm1 : lb.logged_m ≤ (fr_sbuff_in_bstrncpy lb.tctx lb.sbuff inp).length := by
    unfold fr_sbuff_in_bstrncpy
    split
    · simp only [List.length_append]; omega
    · exact hm
  unfold tls_log_global_bio_write_cb
  simp only
  rw [global_loop_spec fr_debug_lvl _ _ [] (by simpa using hm1)
    (by simp only [fr_sbuff_behind, List.length_drop]; omega)]
  simp only [shift_after_scan, List.nil_append, global_lines]

theorem in_bstrncpy_fits (tctx : fr_sbuff_uctx_talloc_t) (t f : List Nat)
    (h : t.length + f.length ≤ tctx.max) : fr_sbuff_in_bstrncpy tctx t f = t ++ f := by
  simp [fr_sbuff_in_bstrncpy, h]

theorem in_bstrncpy_refused (tctx : fr_sbuff_uctx_talloc_t) (t f : List Nat)
    (h : tctx.max < t.length + f.length) : fr_sbuff_in_bstrncpy tctx t f = t := by
  have : ¬ t.length + f.length ≤ tctx.max := by omega
  simp [fr_sbuff_in_bstrncpy, this]

theorem pending_fits_of_length (max : Nat) (t : List Nat) (fs : List (List Nat))
    (h : (t ++ fs.flatten).length ≤ max) : pending_fits max t fs := by
  induction fs generalizing t with
  | nil => trivial
  | cons f fs ih =>
    simp only [List.flatten_cons, List.length_append] at h
    refine ⟨by omega, ih _ ?_⟩
    have := spec_tail_length_le (t ++ f)
    simp only [List.length_append] at this ⊢
    omega

theorem feed_request_spec (lb : fr_tls_log_bio_t) (request : request_t) (fs : List (List Nat))
    (hr : lb.request = some request) (hm : lb.logged_m = 0) (hnl : NL ∉ lb.sbuff)
    (hfit : pending_fits lb.tctx.max lb.sbuff fs) :
    feed_request lb fs =
      .ok ({ lb with sbuff := spec_tail (lb.sbuff ++ fs.flatten), logged_m := 0 },
           (spec_lines (lb.sbuff ++ fs.flatten)).map (request_line lb request)) := by
  induction fs generalizing lb with
  | nil =>
    simp only [feed_request, List.flatten_nil, List.append_nil, spec_tail_of_not_mem _ hnl,
      spec_lines_of_not_mem _ hnl, List.map_nil, ← hm]
  | cons f fs ih =>
    obtain ⟨h1, h2⟩ := hfit
    unfold feed_request
    rw [request_write_spec lb request f hr (by omega), in_bstrncpy_fits _ _ _ h1, hm]
    simp only [List.drop_zero]
    rw [ih { lb with sbuff := spec_tail (lb.sbuff ++ f), logged_m := 0 } hr rfl
      (spec_tail_not_mem _) h2]
    simp only [List.flatten_cons, ← List.append_assoc]
    rw [← spec_tail_append, spec_lines_append (lb.sbuff ++ f) fs.flatten, List.map_append]
    congr 3

theorem feed_global_spec (fr_debug_lvl : Int) (lb : fr_tls_log_bio_t) (fs : List (List Nat))
    (hm : lb.logged_m = 0) (hnl : NL ∉ lb.sbuff)
    (hfit : pending_fits lb.tctx.max lb.sbuff fs) :
    feed_global fr_debug_lvl lb fs =
      .ok ({ lb with sbuff := spec_tail (lb.sbuff ++ fs.flatten), logged_m := 0 },
           global_lines fr_debug_lvl lb (spec_lines (lb.sbuff ++ fs.flatten))) := by
  induction fs generalizing lb with
  | nil =>
    simp only [feed_global, List.flatten_nil, List.append_nil, spec_tail_of_not_mem _ hnl,
      spec_lines_of_not_mem _ hnl, global_lines, List.map_nil, ite_self, ← hm]
  | cons f fs ih =>
    obtain ⟨h1, h2⟩ := hfit
    unfold feed_global
    rw [global_write_spec fr_debug_lvl lb f (by omega), in_bstrncpy_fits _ _ _ h1, hm]
    simp only [List.drop_zero]
    rw [ih { lb with sbuff := spec_tail (lb.sbuff ++ f), logged_m := 0 } rfl
      (spec_tail_not_mem _) h2]
    simp only [List.flatten_cons, ← List.append_assoc]
    rw [← spec_tail_append, spec_lines_append (lb.sbuff ++ f) fs.flatten]
    simp only [global_lines]
    split <;> simp

/-! ## Claims on the line aggregator -/

theorem feed_request_single (lb : fr_tls_log_bio_t) (request : request_t) (fs : List (List Nat))
    (hr : lb.request = some request) (hm : lb.logged_m = 0) (hnl : NL ∉ lb.sbuff)
    (hlen : (lb.sbuff ++ fs.flatten).length ≤ lb.tctx.max) :
    feed_request lb [fs.flatten] = feed_request lb fs := by
  rw [feed_request_spec lb request fs hr hm hnl (pending_fits_of_length _ _ _ hlen),
    feed_request_spec lb request [fs.flatten] hr hm hnl
      (pending_fits_of_length _ _ _ (by simpa using hlen))]
  simp

theorem feed_global_single (fr_debug_lvl : Int) (lb : fr_tls_log_bio_t) (fs : List (List Nat))
    (hm : lb.logged_m = 0) (hnl : NL ∉ lb.sbuff)
    (hlen : (lb.sbuff ++ fs.flatten).length ≤ lb.tctx.max) :
    feed_global fr_debug_lvl lb [fs.flatten] = feed_global fr_debug_lvl lb fs := by
  rw [feed_global_spec fr_debug_lvl lb fs hm hnl (pending_fits_of_length _ _ _ hlen),
    feed_global_spec fr_debug_lvl lb [fs.flatten] hm hnl
      (pending_fits_of_length _ _ _ (by simpa using hlen))]
  simp

theorem overflow_example (r : List Nat) (hb : NL ∉ r) (hlen : r.length = 10239) :
    [[97, NL], r].flatten = [97, NL] ++ r ∧
      feed_request (fresh_log_bio 0 "tls.c" 1 (some ⟨7, 0⟩) .L_DBG 2) [[97, NL], r]
        = .ok ({ fresh_log_bio 0 "tls.c" 1 (some ⟨7, 0⟩) .L_DBG 2 with sbuff := r },
               [.log_request .L_DBG 2 ⟨7, 0⟩ (.strvalue [97])]) ∧
      feed_request (fresh_log_bio 0 "tls.c" 1 (some ⟨7, 0⟩) .L_DBG 2) [[97, NL] ++ r]
        = .ok (fresh_log_bio 0 "tls.c" 1 (some ⟨7, 0⟩) .L_DBG 2, []) := by
  have ht : spec_tail ([97, NL] ++ r) = r := by
    have := spec_tail_first [97] r (by simp [NL])
    rw [spec_tail_of_not_mem _ hb] at this
    simpa using this
  have hl : spec_lines ([97, NL] ++ r) = [[97]] := by
    have := spec_lines_first [97] r (by simp [NL])
    rw [spec_lines_of_not_mem _ hb] at this
    simpa using this
  refine ⟨by simp, ?_, ?_⟩
  · rw [feed_request_spec _ ⟨7, 0⟩ _ rfl rfl (by simp [fresh_log_bio])]
    · simp only [fresh_log_bio, List.nil_append, List.flatten_cons, List.flatten_nil,
        List.append_nil]
      rw [ht, hl]
      simp [request_line]
    · refine ⟨by simp [fresh_log_bio], ?_, trivial⟩
      have h0 : spec_tail ([] ++ [97, NL]) = [] := by decide
      simp only [fresh_log_bio, h0, List.length_nil, hlen]
      omega
  · unfold feed_request
    rw [request_write_spec _ ⟨7, 0⟩ _ rfl (by simp [fresh_log_bio]),
      in_bstrncpy_refused _ _ _ (by simp [fresh_log_bio, hlen])]
    simp [feed_request, fresh_log_bio, spec_tail_of_not_mem, spec_lines_of_not_mem]

/-- C1 (as stated, refuted): the two bytes `a`, newline followed by 10239 bytes `b`
are 10241 bytes.  Fed as two fragments to a freshly acquired request log BIO
they emit the line `a`; fed in one write call the append is refused, since it
exceeds the maximum of 10 KiB, and no record is emitted. -/
theorem C1_fragmentation_counterexample :
    (_fr_tls_request_log_bio "tls.c" 1 (some ⟨7, 0⟩) .L_DBG 2 ⟨none, none, 0⟩).2.request_log_bio
        = some (fresh_log_bio 0 "tls.c" 1 (some ⟨7, 0⟩) .L_DBG 2) ∧
      [[97, NL], List.replicate 10239 98].flatten = [97, NL] ++ List.replicate 10239 98 ∧
      feed_request (fresh_log_bio 0 "tls.c" 1 (some ⟨7, 0⟩) .L_DBG 2)
          [[97, NL], List.replicate 10239 98]
        = .ok ({ fresh_log_bio 0 "tls.c" 1 (some ⟨7, 0⟩) .L_DBG 2 with
                  sbuff := List.replicate 10239 98 },
               [.log_request .L_DBG 2 ⟨7, 0⟩ (.strvalue [97])]) ∧
      feed_request (fresh_log_bio 0 "tls.c" 1 (some ⟨7, 0⟩) .L_DBG 2)
          [[97, NL] ++ List.replicate 10239 98]
        = .ok (fresh_log_bio 0 "tls.c" 1 (some ⟨7, 0⟩) .L_DBG 2, []) :=
  ⟨rfl, overflow_example (List.replicate 10239 98)
    (fun h => absurd (List.eq_of_mem_replicate h) (by decide)) (List.length_replicate _ _)⟩

/-- C1 (amended): for every byte string of at most 10 KiB and every way of
splitting it into consecutive fragments, feeding the fragments one after
another into a freshly acquired log BIO (the request log BIO acquired for a
request, or the global log BIO) returns, and leaves the same state and emits
the same sequence of line records as feeding the whole string in one write
call. -/
theorem C1_fragmentation_invariance (g : Option fr_tls_log_bio_t) (n : Nat) (file : String)
    (line : Int) (request : request_t) (type : fr_log_type_t) (lvl fr_debug_lvl : Int)
    (s : List Nat) (fs : List (List Nat)) (hs : fs.flatten = s) (hlen : s.length ≤ 10 * 1024) :
    (∃ lb st out,
      (_fr_tls_request_log_bio file line (some request) type lvl ⟨none, g, n⟩).2.request_log_bio
        = some lb ∧
      feed_request lb fs = .ok (st, out) ∧ feed_request lb [s] = .ok (st, out)) ∧
    (∃ lb st out,
      (_fr_tls_global_log_bio file line type lvl ⟨g, none, n⟩).map
        (fun r => r.2.global_log_bio) = .ok (some lb) ∧
      feed_global fr_debug_lvl lb fs = .ok (st, out) ∧
      feed_global fr_debug_lvl lb [s] = .ok (st, out)) := by
  subst hs
  constructor
  · have h := feed_request_spec (fresh_log_bio n file line (some request) type lvl) request fs
      rfl rfl (by simp [fresh_log_bio])
      (pending_fits_of_length _ _ _ (by simpa [fresh_log_bio] using hlen))
    have h1 := feed_request_single (fresh_log_bio n file line (some request) type lvl) request
      fs rfl rfl (by simp [fresh_log_bio]) (by simpa [fresh_log_bio] using hlen)
    exact ⟨_, _, _, rfl, h, h1.trans h⟩
  · have h := feed_global_spec fr_debug_lvl (fresh_log_bio n file line none type lvl) fs
      rfl (by simp [fresh_log_bio])
      (pending_fits_of_length _ _ _ (by simpa [fresh_log_bio] using hlen))
    have h1 := feed_global_single fr_debug_lvl (fresh_log_bio n file line none type lvl)
      fs rfl (by simp [fresh_log_bio]) (by simpa [fresh_log_bio] using hlen)
    exact ⟨_, _, _, rfl, h, h1.trans h⟩

/-- Witness of C1 (amended): the string `ab`, newline, `c` split as `a` and
`b`, newline, `c`. -/
theorem C1_fragmentation_invariance_witness :
    ([[97], [98, 10, 99]] : List (List Nat)).flatten = [97, 98, 10, 99] ∧
    ([97, 98, 10, 99] : List Nat).length ≤ 10 * 1024 ∧
    ((∃ lb st out,
      (_fr_tls_request_log_bio "tls.c" 1 (some ⟨7, 0⟩) .L_DBG 2
        ⟨none, none, 0⟩).2.request_log_bio = some lb ∧
      feed_request lb [[97], [98, 10, 99]] = .ok (st, out) ∧
      feed_request lb [[97, 98, 10, 99]] = .ok (st, out)) ∧
    (∃ lb st out,
      (_fr_tls_global_log_bio "tls.c" 1 .L_DBG 2 ⟨none, none, 0⟩).map
        (fun r => r.2.global_log_bio) = .ok (some lb) ∧
      feed_global 3 lb [[97], [98, 10, 99]] = .ok (st, out) ∧
      feed_global 3 lb [[97, 98, 10, 99]] = .ok (st, out))) :=
  ⟨by decide, by decide,
    C1_fragmentation_invariance none 0 "tls.c" 1 ⟨7, 0⟩ .L_DBG 2 3 [97, 98, 10, 99]
      [[97], [98, 10, 99]] (by decide) (by decide)⟩

/-- C2: for every sequence of write calls on a freshly acquired request log BIO
in which the pending data never exceeds the 10 KiB maximum, every call returns,
the records emitted over all the calls are, in order, one record for each
non-empty segment obtained by splitting the concatenation of the written bytes
at each line terminator, the final unterminated segment left out; that final
segment is what stays buffered. -/
theorem C2_request_reference (g : Option fr_tls_log_bio_t) (n : Nat) (file : String)
    (line : Int) (request : request_t) (type : fr_log_type_t) (lvl : Int)
    (fs : List (List Nat)) (hfit : pending_fits (10 * 1024) [] fs) :
    ∃ lb,
      (_fr_tls_request_log_bio file line (some request) type lvl ⟨none, g, n⟩).2.request_log_bio
        = some lb ∧
      feed_request lb fs =
        .ok ({ lb with sbuff := spec_tail fs.flatten },
             (spec_lines fs.flatten).map (fun seg =>
               if type = .L_ERR ∨ type = .L_DBG_ERR ∨ type = .L_DBG_ERR_REQ then
                 log_event.log_request_error type lvl request (.strvalue seg)
               else log_event.log_request type lvl request (.strvalue seg))) := by
  refine ⟨fresh_log_bio n file line (some request) type lvl, rfl, ?_⟩
  rw [feed_request_spec _ request fs rfl rfl (by simp [fresh_log_bio])
    (by simpa [fresh_log_bio] using hfit)]
  simp only [fresh_log_bio, List.nil_append]
  rfl

/-- Witness of C2: the writes `a`, then `b`, newline, newline, `c`. -/
theorem C2_request_reference_witness :
    pending_fits (10 * 1024) [] [[97], [98, 10, 10, 99]] ∧
    ∃ lb,
      (_fr_tls_request_log_bio "tls.c" 1 (some ⟨7, 0⟩) .L_ERR 2
        ⟨none, none, 0⟩).2.request_log_bio = some lb ∧
      feed_request lb [[97], [98, 10, 10, 99]] =
        .ok ({ lb with sbuff := spec_tail ([[97], [98, 10, 10, 99]] : List (List Nat)).flatten },
             (spec_lines ([[97], [98, 10, 10, 99]] : List (List Nat)).flatten).map (fun seg =>
               if fr_log_type_t.L_ERR = .L_ERR ∨ fr_log_type_t.L_ERR = .L_DBG_ERR ∨
                   fr_log_type_t.L_ERR = .L_DBG_ERR_REQ then
                 log_event.log_request_error .L_ERR 2 ⟨7, 0⟩ (.strvalue seg)
               else log_event.log_request .L_ERR 2 ⟨7, 0⟩ (.strvalue seg))) :=
  ⟨⟨by decide, by decide, trivial⟩,
    C2_request_reference none 0 "tls.c" 1 ⟨7, 0⟩ .L_ERR 2 [[97], [98, 10, 10, 99]]
      ⟨by decide, by decide, trivial⟩⟩

/-! ## Claims on acquiring the log BIOs -/

theorem feed_request_bio (lb : fr_tls_log_bio_t) (b : Nat) (fs : List (List Nat))
    (hm : lb.logged_m = 0) :
    feed_request { lb with bio := b } fs =
      (feed_request lb fs).map (fun r => ({ r.1 with bio := b }, r.2)) := by
  induction fs generalizing lb with
  | nil => simp [feed_request, Except.map]
  | cons f fs ih =>
    rcases Option.eq_none_or_eq_some lb.request with hr | ⟨request, hr⟩
    · simp [feed_request, tls_log_request_bio_write_cb, hr, Except.map]
    · unfold feed_request
      rw [request_write_spec lb request f hr (by omega),
        request_write_spec { lb with bio := b } request f hr (by simp only; omega)]
      simp only
      have h := ih { lb with
        sbuff := spec_tail ((fr_sbuff_in_bstrncpy lb.tctx lb.sbuff f).drop lb.logged_m),
        logged_m := 0 } rfl
      simp only at h
      rw [h]
      cases feed_request { lb with
        sbuff := spec_tail ((fr_sbuff_in_bstrncpy lb.tctx lb.sbuff f).drop lb.logged_m),
        logged_m := 0 } fs with
      | error e => simp [Except.map]
      | ok r => simp [Except.map, request_line]

/-- C3: when the request log BIO exists already and `_fr_tls_request_log_bio` is
called again, whatever was buffered is discarded: the buffer is empty, the
cursor is 0, the BIO is the one a first acquisition with the same arguments
creates (with its own handle), and every later sequence of writes emits exactly
the records a fresh request log BIO emits for these writes alone. -/
theorem C3_request_reacquire_discards (ts : thread_state) (old : fr_tls_log_bio_t)
    (file : String) (line : Int) (request : Option request_t) (type : fr_log_type_t) (lvl : Int)
    (hold : ts.request_log_bio = some old)
    (htctx : old.tctx = { init := 1024, max := 10 * 1024 }) :
    ∃ lb,
      _fr_tls_request_log_bio file line request type lvl ts
        = (old.bio, { ts with request_log_bio := some lb }) ∧
      lb.sbuff = [] ∧ lb.logged_m = 0 ∧
      lb = fresh_log_bio old.bio file line request type lvl ∧
      ∀ (g : Option fr_tls_log_bio_t) (n : Nat) (fs : List (List Nat)),
        (_fr_tls_request_log_bio file line request type lvl ⟨none, g, n⟩).2.request_log_bio
          = some (fresh_log_bio n file line request type lvl) ∧
        (feed_request lb fs).map Prod.snd =
          (feed_request (fresh_log_bio n file line request type lvl) fs).map Prod.snd := by
  refine ⟨fresh_log_bio old.bio file line request type lvl, ?_, rfl, rfl, rfl, ?_⟩
  · simp only [_fr_tls_request_log_bio, hold, fr_sbuff_reset_talloc, fresh_log_bio, htctx]
  · intro g n fs
    refine ⟨rfl, ?_⟩
    have h := feed_request_bio (fresh_log_bio n file line request type lvl) old.bio fs rfl
    have he : { fresh_log_bio n file line request type lvl with bio := old.bio } =
        fresh_log_bio old.bio file line request type lvl := rfl
    rw [he] at h
    rw [h]
    cases feed_request (fresh_log_bio n file line request type lvl) fs with
    | error e => rfl
    | ok r => rfl

/-- Witness of C3: the request log BIO holds the unterminated fragment `ab`. -/
theorem C3_request_reacquire_discards_witness :
    ∃ lb,
      _fr_tls_request_log_bio "tls.c" 9 (some ⟨8, 0⟩) .L_DBG 3
          ⟨some { fresh_log_bio 0 "tls.c" 1 (some ⟨7, 0⟩) .L_ERR 2 with sbuff := [97, 98] },
            none, 1⟩
        = (0, { (⟨some { fresh_log_bio 0 "tls.c" 1 (some ⟨7, 0⟩) .L_ERR 2 with
                    sbuff := [97, 98] }, none, 1⟩ : thread_state) with
                request_log_bio := some lb }) ∧
      lb.sbuff = [] ∧ lb.logged_m = 0 ∧
      lb = fresh_log_bio 0 "tls.c" 9 (some ⟨8, 0⟩) .L_DBG 3 ∧
      ∀ (g : Option fr_tls_log_bio_t) (n : Nat) (fs : List (List Nat)),
        (_fr_tls_request_log_bio "tls.c" 9 (some ⟨8, 0⟩) .L_DBG 3
            ⟨none, g, n⟩).2.request_log_bio
          = some (fresh_log_bio n "tls.c" 9 (some ⟨8, 0⟩) .L_DBG 3) ∧
        (feed_request lb fs).map Prod.snd =
          (feed_request (fresh_log_bio n "tls.c" 9 (some ⟨8, 0⟩) .L_DBG 3) fs).map Prod.snd :=
  C3_request_reacquire_discards
    ⟨some { fresh_log_bio 0 "tls.c" 1 (some ⟨7, 0⟩) .L_ERR 2 with sbuff := [97, 98] }, none, 1⟩
    { fresh_log_bio 0 "tls.c" 1 (some ⟨7, 0⟩) .L_ERR 2 with sbuff := [97, 98] }
    "tls.c" 9 (some ⟨8, 0⟩) .L_DBG 3 rfl rfl

/-- C4 (the code at the failing input): both log BIOs exist and the global one
holds the unterminated fragment `abc`.  Calling `_fr_tls_global_log_bio` again
leaves `abc` in the buffer of the global log BIO, and the next write `d`,
newline to the global BIO emits the line `abcd`. -/
theorem C4_global_reacquire_keeps_pending :
    tls_log_global_bio_write_cb 2 (fresh_log_bio 1 "tls.c" 5 none .L_DBG 2) [97, 98, 99]
      = .ok ({ fresh_log_bio 1 "tls.c" 5 none .L_DBG 2 with sbuff := [97, 98, 99] }, [], 3) ∧
    _fr_tls_global_log_bio "tls.c" 9 .L_INFO 1
        ⟨some (fresh_log_bio 0 "tls.c" 1 (some ⟨7, 0⟩) .L_DBG 2),
          some { fresh_log_bio 1 "tls.c" 5 none .L_DBG 2 with sbuff := [97, 98, 99] }, 2⟩
      = .ok (1, ⟨some (fresh_log_bio 0 "tls.c" 1 (some ⟨7, 0⟩) .L_DBG 2),
          some { fresh_log_bio 1 "tls.c" 9 none .L_INFO 1 with sbuff := [97, 98, 99] }, 2⟩) ∧
    tls_log_global_bio_write_cb 2
        { fresh_log_bio 1 "tls.c" 9 none .L_INFO 1 with sbuff := [97, 98, 99] } [100, NL]
      = .ok (fresh_log_bio 1 "tls.c" 9 none .L_INFO 1,
          [.fr_log .L_INFO (.strvalue [97, 98, 99, 100])], 2) := by
  refine ⟨rfl, rfl, rfl⟩

/-- C5 (the code at the failing input): acquiring the global log BIO a second
time empties the buffer of the request log BIO, here the pending fragment `ab`,
and stops on a NULL pointer when the request log BIO was never created. -/
theorem C5_global_acquire_touches_request :
    _fr_tls_global_log_bio "tls.c" 9 .L_INFO 1
        ⟨some { fresh_log_bio 0 "tls.c" 1 (some ⟨7, 0⟩) .L_DBG 2 with sbuff := [97, 98] },
          some (fresh_log_bio 1 "tls.c" 5 none .L_DBG 2), 2⟩
      = .ok (1, ⟨some (fresh_log_bio 0 "tls.c" 1 (some ⟨7, 0⟩) .L_DBG 2),
          some (fresh_log_bio 1 "tls.c" 9 none .L_INFO 1), 2⟩) ∧
    _fr_tls_global_log_bio "tls.c" 9 .L_INFO 1
        ⟨none, some (fresh_log_bio 0 "tls.c" 5 none .L_DBG 2), 1⟩
      = .error .null_deref := by
  refine ⟨rfl, rfl⟩

/-! ## Claims on the error drainers -/

theorem error_event_eq (env : log_env) (request : Option request_t) (e : err_record) :
    (if extra_verbose env request then
        ROPTIONAL request .REDEBUG .ERROR
          (e.file ++ "[" ++ toString e.line ++ "]:" ++ env.ERR_error_string_n e.code ++
            fmt_c_s (if e.flags &&& ERR_TXT_STRING = 0 then none else some e.data))
      else
        ROPTIONAL request .REDEBUG .ERROR
          (env.ERR_error_string_n e.code ++
            fmt_c_s (if e.flags &&& ERR_TXT_STRING = 0 then none else some e.data))) =
      ROPTIONAL request .REDEBUG .ERROR (spec_error_text env (extra_verbose env request) e) := by
  unfold spec_error_text spec_error_desc
  by_cases hv : extra_verbose env request = true <;>
    by_cases hf : e.flags &&& ERR_TXT_STRING = 0 <;>
    simp [hv, hf, fmt_c_s, String.append_assoc]

theorem error_loop_spec (env : log_env) (request : Option request_t) (q : List err_record)
    (e : err_record) (d : Option String) (in_stack : Int) (out : List log_event)
    (hd : (if e.flags &&& ERR_TXT_STRING = 0 then none else d) =
      (if e.flags &&& ERR_TXT_STRING = 0 then none else some e.data))
    (hq : codes_nonzero q) :
    fr_tls_log_error_va_loop env request q e.code
        { file := e.file, line := e.line, data := d, flags := e.flags } in_stack out =
      (in_stack + ((e :: q).length : Int),
       out ++ (e :: q).map (fun e => ROPTIONAL request .REDEBUG .ERROR
         (spec_error_text env (extra_verbose env request) e)), []) := by
  induction q generalizing e d in_stack out with
  | nil =>
    unfold fr_tls_log_error_va_loop
    simp only [hd, error_event_eq env request e]
    simp
  | cons e1 q ih =>
    have h1 : e1.code ≠ 0 := hq e1 (List.mem_cons_self _ _)
    have hq1 : codes_nonzero q := fun x hx => hq x (List.mem_cons_of_mem _ hx)
    unfold fr_tls_log_error_va_loop
    simp only [hd, error_event_eq env request e, h1, if_false]
    rw [ih e1 (some e1.data) _ _ rfl hq1]
    simp only [List.length_cons, List.map_cons, List.append_assoc, List.singleton_append,
      Nat.cast_add, Nat.cast_one]
    congr 1
    omega

theorem error_va_spec (env : log_env) (request : Option request_t) (msg : Option String)
    (q : List err_record) (hq : codes_nonzero q) :
    fr_tls_log_error_va env request msg q =
      ((q.length : Int), spec_drain_records env request msg q, []) := by
  cases q with
  | nil =>
    cases msg with
    | none => simp [fr_tls_log_error_va, ERR_get_error_line_data, spec_drain_records]
    | some p =>
      simp [fr_tls_log_error_va, ERR_get_error_line_data, spec_drain_records]
  | cons e q =>
    have h1 : e.code ≠ 0 := hq e (List.mem_cons_self _ _)
    have hq1 : codes_nonzero q := fun x hx => hq x (List.mem_cons_of_mem _ hx)
    have hl := fun (out : List log_event) =>
      error_loop_spec env request q e
        (if e.flags &&& ERR_TXT_STRING = 0 then none else some e.data) 0 out
        (by split <;> rfl) hq1
    have hl2 : ∀ out : List log_event,
        fr_tls_log_error_va_loop env request q e.code
          (if e.flags &&& ERR_TXT_STRING = 0 then
            { file := e.file, line := e.line, data := none, flags := e.flags }
          else { file := e.file, line := e.line, data := some e.data, flags := e.flags }) 0 out =
        (0 + ((e :: q).length : Int),
         out ++ (e :: q).map (fun e => ROPTIONAL request .REDEBUG .ERROR
           (spec_error_text env (extra_verbose env request) e)), []) := by
      intro out
      rw [← hl out]
      split <;> rfl
    cases msg with
    | none =>
      simp only [fr_tls_log_error_va, ERR_get_error_line_data, h1, if_false, hl2,
        spec_drain_records, List.nil_append, zero_add]
    | some p =>
      cases q with
      | nil =>
        have hev := error_event_eq env request e
        unfold spec_error_text spec_error_desc at hev
        simp only [fr_tls_log_error_va, ERR_get_error_line_data, ERR_peek_error, ne_eq, h1,
          not_false_eq_true, and_self, if_true, spec_drain_records, List.length_singleton,
          Nat.cast_one, spec_error_text, spec_error_desc]
        by_cases hv : extra_verbose env request = true <;>
          by_cases hf : e.flags &&& ERR_TXT_STRING = 0 <;>
          simp [hv, hf, fmt_c_s, String.append_assoc]
      | cons e2 q2 =>
        have h2 : e2.code ≠ 0 := hq e2 (by simp)
        simp only [fr_tls_log_error_va, ERR_get_error_line_data, ERR_peek_error, ne_eq, h1,
          not_false_eq_true, h2, and_false, if_false, hl2, spec_drain_records,
          List.singleton_append, zero_add]

theorem strerror_loop_spec (env : log_env) (q : List err_record) (drained : Int)
    (slot : List String) (hq : codes_nonzero q) :
    tls_strerror_vasprintf_loop env q drained slot =
      (drained + (q.length : Int), slot ++ q.map (spec_error_desc env), []) := by
  induction q generalizing drained slot with
  | nil => simp [tls_strerror_vasprintf_loop]
  | cons e q ih =>
    have h1 : e.code ≠ 0 := hq e (List.mem_cons_self _ _)
    have hq1 : codes_nonzero q := fun x hx => hq x (List.mem_cons_of_mem _ hx)
    unfold tls_strerror_vasprintf_loop
    simp only [h1, if_false]
    rw [ih _ _ hq1]
    have hd : env.ERR_error_string_n e.code ++
        fmt_c_s (if e.flags &&& ERR_TXT_STRING = 0 then none else some e.data) =
        spec_error_desc env e := by
      unfold spec_error_desc
      split <;> simp [fmt_c_s]
    simp only [hd, fr_strerror_printf_push, List.length_cons, List.map_cons, List.append_assoc,
      List.singleton_append, Nat.cast_add, Nat.cast_one]
    congr 1
    omega

theorem strerror_count (env : log_env) (msg : Option String) (q : List err_record)
    (slot : List String) (hq : codes_nonzero q) :
    (tls_strerror_vasprintf env msg q slot).1 = (q.length : Int) ∧
      (tls_strerror_vasprintf env msg q slot).2.2 = [] := by
  cases q with
  | nil =>
    cases msg <;>
      simp [tls_strerror_vasprintf, ERR_get_error_line_data, tls_strerror_vasprintf_loop]
  | cons e q =>
    have h1 : e.code ≠ 0 := hq e (List.mem_cons_self _ _)
    have hq1 : codes_nonzero q := fun x hx => hq x (List.mem_cons_of_mem _ hx)
    cases msg <;>
      simp [tls_strerror_vasprintf, ERR_get_error_line_data, h1, strerror_loop_spec _ _ _ _ hq1,
        add_comm]

/-- C6: for every error queue (records with non-zero codes, oldest first) and
every optional message, `fr_tls_log_error` returns the number of records that
were queued and leaves the queue empty; it returns 0 on an empty queue with or
without a message, 1 on a queue of one record and 2 on a queue of two records
with a message. -/
theorem C6_drain_count (env : log_env) (request : Option request_t) (msg : Option String)
    (q : List err_record) (hq : codes_nonzero q) :
    (fr_tls_log_error env request msg q).1 = (q.length : Int) ∧
    (fr_tls_log_error env request msg q).2.2 = [] ∧
    (fr_tls_log_error env request none []).1 = 0 ∧
    (∀ p, (fr_tls_log_error env request (some p) []).1 = 0) ∧
    (q.length = 1 → (fr_tls_log_error env request msg q).1 = 1) ∧
    (∀ p, q.length = 2 → (fr_tls_log_error env request (some p) q).1 = 2) := by
  have hnil : codes_nonzero [] := fun e he => absurd he (List.not_mem_nil e)
  refine ⟨?_, ?_, ?_, ?_, ?_, ?_⟩
  · simp [fr_tls_log_error, error_va_spec env request msg q hq]
  · simp [fr_tls_log_error, error_va_spec env request msg q hq]
  · simp [fr_tls_log_error, error_va_spec env request none [] hnil]
  · intro p
    simp [fr_tls_log_error, error_va_spec env request (some p) [] hnil]
  · intro h
    simp [fr_tls_log_error, error_va_spec env request msg q hq, h]
  · intro p h
    simp [fr_tls_log_error, error_va_spec env request (some p) q hq, h]

/-- Witness of C6: a queue of two records and the message `X failed`. -/
theorem C6_drain_count_witness :
    codes_nonzero [⟨5, "ssl.c", 10, "bad cert", 2⟩, ⟨6, "x509.c", 20, "", 0⟩] ∧
    (fr_tls_log_error ⟨3, fun c => "error:" ++ toString c⟩ none (some "X failed")
      [⟨5, "ssl.c", 10, "bad cert", 2⟩, ⟨6, "x509.c", 20, "", 0⟩]).1 = 2 :=
  ⟨by decide,
    (C6_drain_count ⟨3, fun c => "error:" ++ toString c⟩ none (some "X failed")
      [⟨5, "ssl.c", 10, "bad cert", 2⟩, ⟨6, "x509.c", 20, "", 0⟩] (by decide)).1⟩

/-- C7: for every error queue `E1..En` (records with non-zero codes, oldest
first) and optional message `P`, `fr_tls_log_error` emits exactly: nothing when
n = 0 and there is no message; `P` alone when n = 0; one record combining `P`
and the text of `E1` when n = 1 and `P` is given; `P` and then one record per
error when n >= 2 and `P` is given; one record per error when there is no
message.  The errors come in queue order, each once, and the text of an error
starts with its source file and line exactly when the level 3 debug check
holds. -/
theorem C7_drain_records (env : log_env) (request : Option request_t) (msg : Option String)
    (q : List err_record) (hq : codes_nonzero q) :
    (fr_tls_log_error env request msg q).2.1 = spec_drain_records env request msg q := by
  simp [fr_tls_log_error, error_va_spec env request msg q hq]

/-- Witness of C7: two queued records and the message `X failed`, at debug
level 3. -/
theorem C7_drain_records_witness :
    codes_nonzero [⟨5, "ssl.c", 10, "bad cert", 2⟩, ⟨6, "x509.c", 20, "", 0⟩] ∧
    (fr_tls_log_error ⟨3, fun c => "error:" ++ toString c⟩ none (some "X failed")
      [⟨5, "ssl.c", 10, "bad cert", 2⟩, ⟨6, "x509.c", 20, "", 0⟩]).2.1 =
      spec_drain_records ⟨3, fun c => "error:" ++ toString c⟩ none (some "X failed")
        [⟨5, "ssl.c", 10, "bad cert", 2⟩, ⟨6, "x509.c", 20, "", 0⟩] ∧
    spec_drain_records ⟨3, fun c => "error:" ++ toString c⟩ none (some "X failed")
        [⟨5, "ssl.c", 10, "bad cert", 2⟩, ⟨6, "x509.c", 20, "", 0⟩] =
      [.ERROR "X failed", .ERROR "ssl.c[10]:error:5:bad cert", .ERROR "x509.c[20]:error:6"] :=
  ⟨by decide,
    C7_drain_records ⟨3, fun c => "error:" ++ toString c⟩ none (some "X failed")
      [⟨5, "ssl.c", 10, "bad cert", 2⟩, ⟨6, "x509.c", 20, "", 0⟩] (by decide),
    by decide⟩

/-- C8: for every session error classification `e = SSL_get_error(session, ret)`,
every state of the error queue and every message, `fr_tls_log_io_error` returns
0 exactly when `e` is one of `SSL_ERROR_NONE`, `SSL_ERROR_WANT_READ`,
`SSL_ERROR_WANT_WRITE`, `SSL_ERROR_WANT_X509_LOOKUP`, `SSL_ERROR_ZERO_RETURN`,
and -1 for every other value, `SSL_ERROR_SYSCALL` and `SSL_ERROR_SSL` included;
the value does not depend on the queue. -/
theorem C8_io_error_classification (env : log_env) (request : Option request_t)
    (session : fr_tls_session_t) (ret : Int) (msg : Option String) (q : List err_record) :
    ((fr_tls_log_io_error env request session ret msg q).1 = 0 ↔
      (session.SSL_get_error ret = SSL_ERROR_NONE ∨
        session.SSL_get_error ret = SSL_ERROR_WANT_READ ∨
        session.SSL_get_error ret = SSL_ERROR_WANT_WRITE ∨
        session.SSL_get_error ret = SSL_ERROR_WANT_X509_LOOKUP ∨
        session.SSL_get_error ret = SSL_ERROR_ZERO_RETURN)) ∧
    ((fr_tls_log_io_error env request session ret msg q).1 = -1 ↔
      ¬ (session.SSL_get_error ret = SSL_ERROR_NONE ∨
        session.SSL_get_error ret = SSL_ERROR_WANT_READ ∨
        session.SSL_get_error ret = SSL_ERROR_WANT_WRITE ∨
        session.SSL_get_error ret = SSL_ERROR_WANT_X509_LOOKUP ∨
        session.SSL_get_error ret = SSL_ERROR_ZERO_RETURN)) ∧
    (session.SSL_get_error ret = SSL_ERROR_SYSCALL →
      (fr_tls_log_io_error env request session ret msg q).1 = -1) ∧
    (session.SSL_get_error ret = SSL_ERROR_SSL →
      (fr_tls_log_io_error env request session ret msg q).1 = -1) ∧
    (∀ q1 : List err_record, (fr_tls_log_io_error env request session ret msg q1).1 =
      (fr_tls_log_io_error env request session ret msg q).1) := by
  have key : ∀ q0 : List err_record, (fr_tls_log_io_error env request session ret msg q0).1 =
      if (session.SSL_get_error ret = SSL_ERROR_NONE ∨
        session.SSL_get_error ret = SSL_ERROR_WANT_READ ∨
        session.SSL_get_error ret = SSL_ERROR_WANT_WRITE ∨
        session.SSL_get_error ret = SSL_ERROR_WANT_X509_LOOKUP ∨
        session.SSL_get_error ret = SSL_ERROR_ZERO_RETURN) then 0 else -1 := by
    intro q0
    unfold fr_tls_log_io_error
    simp only
    split_ifs <;> rfl
  refine ⟨?_, ?_, ?_, ?_, ?_⟩
  · rw [key q]; split_ifs with h <;> simp [h]
  · rw [key q]; split_ifs with h <;> simp [h]
  · intro h
    rw [key q, h]
    decide
  · intro h
    rw [key q, h]
    decide
  · intro q1
    rw [key q1, key q]

/-- Witness of C8: want-read with a non-empty queue still returns 0, and an
unrecognised classification returns -1. -/
theorem C8_io_error_classification_witness :
    ((fr_tls_log_io_error ⟨3, fun c => "error:" ++ toString c⟩ none ⟨fun _ => 2⟩ (-1)
        (some "X failed") [⟨5, "ssl.c", 10, "bad cert", 2⟩]).1 = 0 ↔
      ((2 : Int) = SSL_ERROR_NONE ∨ (2 : Int) = SSL_ERROR_WANT_READ ∨
        (2 : Int) = SSL_ERROR_WANT_WRITE ∨ (2 : Int) = SSL_ERROR_WANT_X509_LOOKUP ∨
        (2 : Int) = SSL_ERROR_ZERO_RETURN)) ∧
    (fr_tls_log_io_error ⟨3, fun c => "error:" ++ toString c⟩ none ⟨fun _ => 2⟩ (-1)
        (some "X failed") [⟨5, "ssl.c", 10, "bad cert", 2⟩]).1 = 0 ∧
    (fr_tls_log_io_error ⟨3, fun c => "error:" ++ toString c⟩ none ⟨fun _ => 7⟩ (-1)
        (some "X failed") [⟨5, "ssl.c", 10, "bad cert", 2⟩]).1 = -1 :=
  ⟨(C8_io_error_classification ⟨3, fun c => "error:" ++ toString c⟩ none ⟨fun _ => 2⟩ (-1)
      (some "X failed") [⟨5, "ssl.c", 10, "bad cert", 2⟩]).1,
    by decide, by decide⟩

/-- C9: for every error queue (records with non-zero codes), message and
classification `e`, the records emitted by `fr_tls_log_io_error` are those of
`fr_tls_log_error_va` with the same message when the queue is not empty, none
when it is empty, followed by one classified message when `e` is fatal and by
nothing when `e` is one of the five transient classifications; the queue is
empty on return. -/
theorem C9_io_error_records (env : log_env) (request : Option request_t)
    (session : fr_tls_session_t) (ret : Int) (msg : Option String) (q : List err_record)
    (hq : codes_nonzero q) :
    (fr_tls_log_io_error env request session ret msg q).2.1 =
      (if q = [] then [] else (fr_tls_log_error_va env request msg q).2.1) ++
        spec_classified request (session.SSL_get_error ret) ret ∧
    (fr_tls_log_io_error env request session ret msg q).2.2 = [] := by
  have hpeek : ERR_peek_error q ≠ 0 ↔ q ≠ [] := by
    cases q with
    | nil => simp [ERR_peek_error]
    | cons e q => simpa [ERR_peek_error] using hq e (List.mem_cons_self _ _)
  have hva := error_va_spec env request msg q hq
  by_cases hempty : q = []
  · subst hempty
    unfold fr_tls_log_io_error spec_classified
    simp only [ERR_peek_error, ne_eq, not_true_eq_false, if_false, if_true, List.nil_append]
    split_ifs <;> simp
  · have hp : ERR_peek_error q ≠ 0 := hpeek.2 hempty
    unfold fr_tls_log_io_error spec_classified
    simp only [hp, ne_eq, not_false_eq_true, if_true, hempty, if_false, hva]
    split_ifs <;> simp

/-- Witness of C9: want-read with one queued record, and an unknown
classification 7 with an empty queue. -/
theorem C9_io_error_records_witness :
    codes_nonzero [⟨5, "ssl.c", 10, "bad cert", 2⟩] ∧
    ((fr_tls_log_io_error ⟨3, fun c => "error:" ++ toString c⟩ none ⟨fun _ => 2⟩ (-1)
        (some "X failed") [⟨5, "ssl.c", 10, "bad cert", 2⟩]).2.1 =
      (if ([⟨5, "ssl.c", 10, "bad cert", 2⟩] : List err_record) = [] then []
        else (fr_tls_log_error_va ⟨3, fun c => "error:" ++ toString c⟩ none (some "X failed")
          [⟨5, "ssl.c", 10, "bad cert", 2⟩]).2.1) ++ spec_classified none 2 (-1) ∧
    (fr_tls_log_io_error ⟨3, fun c => "error:" ++ toString c⟩ none ⟨fun _ => 2⟩ (-1)
        (some "X failed") [⟨5, "ssl.c", 10, "bad cert", 2⟩]).2.2 = []) ∧
    fr_tls_log_io_error ⟨3, fun c => "error:" ++ toString c⟩ none ⟨fun _ => 2⟩ (-1)
        (some "X failed") [⟨5, "ssl.c", 10, "bad cert", 2⟩] =
      (0, [.ERROR "X failed: ssl.c[10]:error:5:bad cert"], []) ∧
    fr_tls_log_io_error ⟨3, fun c => "error:" ++ toString c⟩ none ⟨fun _ => 7⟩ (-1)
        (some "X failed") [] =
      (-1, [.ERROR "TLS session error 7 (-1)"], []) :=
  ⟨by decide,
    C9_io_error_records ⟨3, fun c => "error:" ++ toString c⟩ none ⟨fun _ => 2⟩ (-1)
      (some "X failed") [⟨5, "ssl.c", 10, "bad cert", 2⟩] (by decide),
    by decide, by decide⟩

/-- C10: for every error queue (records with non-zero codes) and every optional
message, `fr_tls_log_strerror_printf` and `fr_tls_log_error` started from the
same queue return the same integer, the number of queued records. -/
theorem C10_same_count (env : log_env) (request : Option request_t) (msg : Option String)
    (q : List err_record) (slot : List String) (hq : codes_nonzero q) :
    (fr_tls_log_strerror_printf env msg q slot).1 = (fr_tls_log_error env request msg q).1 ∧
    (fr_tls_log_strerror_printf env msg q slot).1 = (q.length : Int) := by
  have h1 := (strerror_count env msg q slot hq).1
  have h2 : (fr_tls_log_error env request msg q).1 = (q.length : Int) := by
    simp [fr_tls_log_error, error_va_spec env request msg q hq]
  exact ⟨by rw [h2]; exact h1, h1⟩

/-- Witness of C10: two queued records and the message `X failed`. -/
theorem C10_same_count_witness :
    codes_nonzero [⟨5, "ssl.c", 10, "bad cert", 2⟩, ⟨6, "x509.c", 20, "", 0⟩] ∧
    ((fr_tls_log_strerror_printf ⟨3, fun c => "error:" ++ toString c⟩ (some "X failed")
        [⟨5, "ssl.c", 10, "bad cert", 2⟩, ⟨6, "x509.c", 20, "", 0⟩] ["old"]).1 =
      (fr_tls_log_error ⟨3, fun c => "error:" ++ toString c⟩ (some ⟨7, 0⟩) (some "X failed")
        [⟨5, "ssl.c", 10, "bad cert", 2⟩, ⟨6, "x509.c", 20, "", 0⟩]).1 ∧
    (fr_tls_log_strerror_printf ⟨3, fun c => "error:" ++ toString c⟩ (some "X failed")
        [⟨5, "ssl.c", 10, "bad cert", 2⟩, ⟨6, "x509.c", 20, "", 0⟩] ["old"]).1 =
      (([⟨5, "ssl.c", 10, "bad cert", 2⟩, ⟨6, "x509.c", 20, "", 0⟩] :
        List err_record).length : Int)) :=
  ⟨by decide,
    C10_same_count ⟨3, fun c => "error:" ++ toString c⟩ (some ⟨7, 0⟩) (some "X failed")
      [⟨5, "ssl.c", 10, "bad cert", 2⟩, ⟨6, "x509.c", 20, "", 0⟩] ["old"] (by decide)⟩

/-! ## The write callbacks in every state -/

theorem request_write_any (lb : fr_tls_log_bio_t) (request : request_t) (inp : List Nat)
    (hr : lb.request = some request) :
    tls_log_request_bio_write_cb lb inp =
      .ok ({ lb with
              sbuff := spec_tail ((fr_sbuff_in_bstrncpy lb.tctx lb.sbuff inp).drop lb.logged_m),
              logged_m := lb.logged_m - (fr_sbuff_in_bstrncpy lb.tctx lb.sbuff inp).length },
           (spec_lines ((fr_sbuff_in_bstrncpy lb.tctx lb.sbuff inp).drop lb.logged_m)).map
             (request_line lb request),
           (inp.length : Int)) := by
  by_cases hm : lb.logged_m ≤ (fr_sbuff_in_bstrncpy lb.tctx lb.sbuff inp).length
  · unfold tls_log_request_bio_write_cb
    rw [hr]
    simp only
    rw [request_loop_spec _ request _ _ [] (by simpa using hm)
      (by simp only [fr_sbuff_behind, List.length_drop]; omega)]
    simp only [shift_after_scan, List.nil_append]
    have h0 : lb.logged_m - (fr_sbuff_in_bstrncpy lb.tctx lb.sbuff inp).length = 0 := by omega
    rw [h0]
    congr 3
    apply List.map_congr_left
    intro seg _
    unfold request_line
    split <;> rfl
  · have hlt : (fr_sbuff_in_bstrncpy lb.tctx lb.sbuff inp).length < lb.logged_m := by omega
    have hd : (fr_sbuff_in_bstrncpy lb.tctx lb.sbuff inp).drop lb.logged_m = [] :=
      List.drop_eq_nil_of_le (by omega)
    have hb : fr_sbuff_behind (fr_sbuff_in_bstrncpy lb.tctx lb.sbuff inp) lb.logged_m = 0 := by
      unfold fr_sbuff_behind; omega
    unfold tls_log_request_bio_write_cb
    rw [hr]
    simp only [hb, tls_log_request_bio_write_cb_loop, if_true, hd, fr_sbuff_shift]
    have hk : min lb.logged_m (min (fr_sbuff_in_bstrncpy lb.tctx lb.sbuff inp).length
        lb.logged_m) = (fr_sbuff_in_bstrncpy lb.tctx lb.sbuff inp).length := by omega
    have hk2 : min (fr_sbuff_in_bstrncpy lb.tctx lb.sbuff inp).length lb.logged_m =
        (fr_sbuff_in_bstrncpy lb.tctx lb.sbuff inp).length := by omega
    simp [hk, hk2, spec_tail_of_not_mem, spec_lines_of_not_mem]
    omega

theorem global_write_any (fr_debug_lvl : Int) (lb : fr_tls_log_bio_t) (inp : List Nat) :
    tls_log_global_bio_write_cb fr_debug_lvl lb inp =
      .ok ({ lb with
              sbuff := spec_tail ((fr_sbuff_in_bstrncpy lb.tctx lb.sbuff inp).drop lb.logged_m),
              logged_m := lb.logged_m - (fr_sbuff_in_bstrncpy lb.tctx lb.sbuff inp).length },
           global_lines fr_debug_lvl lb
             (spec_lines ((fr_sbuff_in_bstrncpy lb.tctx lb.sbuff inp).drop lb.logged_m)),
           (inp.length : Int)) := by
  by_cases hm : lb.logged_m ≤ (fr_sbuff_in_bstrncpy lb.tctx lb.sbuff inp).length
  · unfold tls_log_global_bio_write_cb
    simp only
    rw [global_loop_spec fr_debug_lvl _ _ [] (by simpa using hm)
      (by simp only [fr_sbuff_behind, List.length_drop]; omega)]
    have h0 : lb.logged_m - (fr_sbuff_in_bstrncpy lb.tctx lb.sbuff inp).length = 0 := by omega
    simp only [shift_after_scan, List.nil_append, global_lines, h0]
  · have hlt : (fr_sbuff_in_bstrncpy lb.tctx lb.sbuff inp).length < lb.logged_m := by omega
    have hd : (fr_sbuff_in_bstrncpy lb.tctx lb.sbuff inp).drop lb.logged_m = [] :=
      List.drop_eq_nil_of_le (by omega)
    have hb : fr_sbuff_behind (fr_sbuff_in_bstrncpy lb.tctx lb.sbuff inp) lb.logged_m = 0 := by
      unfold fr_sbuff_behind; omega
    unfold tls_log_global_bio_write_cb
    simp only [hb, tls_log_global_bio_write_cb_loop, if_true, hd, fr_sbuff_shift]
    have hk : min lb.logged_m (min (fr_sbuff_in_bstrncpy lb.tctx lb.sbuff inp).length
        lb.logged_m) = (fr_sbuff_in_bstrncpy lb.tctx lb.sbuff inp).length := by omega
    have hk2 : min (fr_sbuff_in_bstrncpy lb.tctx lb.sbuff inp).length lb.logged_m =
        (fr_sbuff_in_bstrncpy lb.tctx lb.sbuff inp).length := by omega
    simp [hk, hk2, spec_tail_of_not_mem, spec_lines_of_not_mem, global_lines]
    omega

/-! ## Claims on drain-to-buffer and on clearing the queue -/

theorem strerror_spec (env : log_env) (msg : Option String) (q : List err_record)
    (slot : List String) (hq : codes_nonzero q) :
    tls_strerror_vasprintf env msg q slot =
      ((q.length : Int), spec_slot env msg q slot, []) := by
  cases q with
  | nil =>
    cases msg <;>
      simp [tls_strerror_vasprintf, ERR_get_error_line_data, tls_strerror_vasprintf_loop,
        spec_slot, fr_strerror_printf]
  | cons e q =>
    have h1 : e.code ≠ 0 := hq e (List.mem_cons_self _ _)
    have hq1 : codes_nonzero q := fun x hx => hq x (List.mem_cons_of_mem _ hx)
    have hd : env.ERR_error_string_n e.code ++
        fmt_c_s (if e.flags &&& ERR_TXT_STRING = 0 then none else some e.data) =
        spec_error_desc env e := by
      unfold spec_error_desc
      split <;> simp [fmt_c_s]
    cases msg with
    | none =>
      simp only [tls_strerror_vasprintf, ERR_get_error_line_data, ne_eq, h1, not_false_eq_true,
        if_true, strerror_loop_spec _ _ _ _ hq1, hd, fr_strerror_printf, spec_slot,
        List.singleton_append, List.length_cons, Nat.cast_add, Nat.cast_one]
      congr 1
      omega
    | some p =>
      simp only [tls_strerror_vasprintf, ERR_get_error_line_data, ne_eq, h1, not_false_eq_true,
        if_true, strerror_loop_spec _ _ _ _ hq1, String.append_assoc, hd, fr_strerror_printf,
        spec_slot, List.singleton_append, List.length_cons, Nat.cast_add, Nat.cast_one]
      congr 1
      omega

theorem clear_spec (q : List err_record) (hq : codes_nonzero q) : tls_log_clear q = [] := by
  induction q with
  | nil => rfl
  | cons e q ih =>
    have h1 : e.code ≠ 0 := hq e (List.mem_cons_self _ _)
    have hq1 : codes_nonzero q := fun x hx => hq x (List.mem_cons_of_mem _ hx)
    simp only [tls_log_clear, h1, if_false, ih hq1]

/-- C11: for every error queue `E1..En` (records with non-zero codes) and
optional message `P`, with n >= 1 or `P` present, `fr_tls_log_strerror_printf`
leaves exactly max(n, 1) entries in the error-message slot: first `P: E1`, or
`P` alone when n = 0, or `E1` alone when there is no `P`, in place of whatever
the slot held, then `E2..En` in queue order; with n = 0 and no message the slot
is unchanged and 0 is returned. -/
theorem C11_strerror_slot (env : log_env) (msg : Option String) (q : List err_record)
    (slot : List String) (hq : codes_nonzero q) :
    (fr_tls_log_strerror_printf env msg q slot).2.1 = spec_slot env msg q slot ∧
    ((q ≠ [] ∨ msg ≠ none) → (spec_slot env msg q slot).length = max q.length 1) ∧
    (∀ p e q1, msg = some p → q = e :: q1 →
      (fr_tls_log_strerror_printf env msg q slot).2.1 =
        (p ++ ": " ++ spec_error_desc env e) :: q1.map (spec_error_desc env)) ∧
    (∀ p, msg = some p → q = [] → (fr_tls_log_strerror_printf env msg q slot).2.1 = [p]) ∧
    (∀ e q1, msg = none → q = e :: q1 →
      (fr_tls_log_strerror_printf env msg q slot).2.1 =
        spec_error_desc env e :: q1.map (spec_error_desc env)) ∧
    (msg = none → q = [] → fr_tls_log_strerror_printf env msg q slot = (0, slot, [])) := by
  have h := strerror_spec env msg q slot hq
  refine ⟨by simp [fr_tls_log_strerror_printf, h], ?_, ?_, ?_, ?_, ?_⟩
  · intro hne
    cases msg with
    | none =>
      cases q with
      | nil => simp at hne
      | cons e q1 => simp [spec_slot]
    | some p =>
      cases q with
      | nil => simp [spec_slot]
      | cons e q1 => simp [spec_slot]
  · intro p e q1 hm hq1
    subst hm hq1
    simp [fr_tls_log_strerror_printf, h, spec_slot]
  · intro p hm hq1
    subst hm hq1
    simp [fr_tls_log_strerror_printf, h, spec_slot]
  · intro e q1 hm hq1
    subst hm hq1
    simp [fr_tls_log_strerror_printf, h, spec_slot]
  · intro hm hq1
    subst hm hq1
    simp [fr_tls_log_strerror_printf, h, spec_slot]

/-- Witness of C11: two queued records, the message `X failed`, and a slot that
held `old`. -/
theorem C11_strerror_slot_witness :
    codes_nonzero [⟨5, "ssl.c", 10, "bad cert", 2⟩, ⟨6, "x509.c", 20, "", 0⟩] ∧
    (fr_tls_log_strerror_printf ⟨3, fun c => "error:" ++ toString c⟩ (some "X failed")
        [⟨5, "ssl.c", 10, "bad cert", 2⟩, ⟨6, "x509.c", 20, "", 0⟩] ["old"]).2.1 =
      spec_slot ⟨3, fun c => "error:" ++ toString c⟩ (some "X failed")
        [⟨5, "ssl.c", 10, "bad cert", 2⟩, ⟨6, "x509.c", 20, "", 0⟩] ["old"] ∧
    spec_slot ⟨3, fun c => "error:" ++ toString c⟩ (some "X failed")
        [⟨5, "ssl.c", 10, "bad cert", 2⟩, ⟨6, "x509.c", 20, "", 0⟩] ["old"] =
      ["X failed: error:5:bad cert", "error:6"] :=
  ⟨by decide,
    (C11_strerror_slot ⟨3, fun c => "error:" ++ toString c⟩ (some "X failed")
      [⟨5, "ssl.c", 10, "bad cert", 2⟩, ⟨6, "x509.c", 20, "", 0⟩] ["old"] (by decide)).1,
    by decide⟩

/-- C12 (as stated, refuted): with two records queued, the call of
`fr_tls_log_strerror_printf` pops both: it returns 2, the second record is a
stacked entry of the slot, and the queue is empty, not the one record the
claim leaves in it. -/
theorem C12_strerror_counterexample :
    fr_tls_log_strerror_printf ⟨3, fun c => "error:" ++ toString c⟩ (some "X failed")
        [⟨5, "ssl.c", 10, "bad cert", 2⟩, ⟨6, "x509.c", 20, "", 0⟩] ["old"] =
      (2, ["X failed: error:5:bad cert", "error:6"], []) ∧
    (fr_tls_log_strerror_printf ⟨3, fun c => "error:" ++ toString c⟩ (some "X failed")
        [⟨5, "ssl.c", 10, "bad cert", 2⟩, ⟨6, "x509.c", 20, "", 0⟩] ["old"]).2.2 ≠
      [⟨6, "x509.c", 20, "", 0⟩] := by
  refine ⟨by decide, by decide⟩

/-- C12 (amended): `fr_tls_log_strerror_printf` drains the whole queue: for
every queue of at least two records (with non-zero codes), after the call
every record has been popped, the queue is empty, and the number of records is
returned. -/
theorem C12_strerror_drains_all (env : log_env) (msg : Option String) (q : List err_record)
    (slot : List String) (hq : codes_nonzero q) (h2 : 2 ≤ q.length) :
    (fr_tls_log_strerror_printf env msg q slot).2.2 = [] ∧
    (fr_tls_log_strerror_printf env msg q slot).1 = (q.length : Int) := by
  have h := strerror_spec env msg q slot hq
  have _ := h2
  simp [fr_tls_log_strerror_printf, h]

/-- Witness of C12 (amended): two queued records. -/
theorem C12_strerror_drains_all_witness :
    codes_nonzero [⟨5, "ssl.c", 10, "bad cert", 2⟩, ⟨6, "x509.c", 20, "", 0⟩] ∧
    2 ≤ ([⟨5, "ssl.c", 10, "bad cert", 2⟩, ⟨6, "x509.c", 20, "", 0⟩] : List err_record).length ∧
    (fr_tls_log_strerror_printf ⟨3, fun c => "error:" ++ toString c⟩ none
        [⟨5, "ssl.c", 10, "bad cert", 2⟩, ⟨6, "x509.c", 20, "", 0⟩] ["old"]).2.2 = [] :=
  ⟨by decide, by decide,
    (C12_strerror_drains_all ⟨3, fun c => "error:" ++ toString c⟩ none
      [⟨5, "ssl.c", 10, "bad cert", 2⟩, ⟨6, "x509.c", 20, "", 0⟩] ["old"]
      (by decide) (by decide)).1⟩

/-- C13: for every error queue (records with non-zero codes) `tls_log_clear`
leaves the queue empty; it has no access to the log or to the error-message
slot.  So after a clear of any stale queue, one error `E` queued and then
`fr_tls_log_error` with a message `P` gives exactly one record, the single-line
combination of `P` and `E`, and returns 1. -/
theorem C13_clear_resets_mode (env : log_env) (request : Option request_t) (p : String)
    (q : List err_record) (e : err_record) (hq : codes_nonzero q) (he : e.code ≠ 0) :
    tls_log_clear q = [] ∧
    fr_tls_log_error env request (some p) (tls_log_clear q ++ [e]) =
      (1, [ROPTIONAL request .REDEBUG .ERROR
        (p ++ ": " ++ spec_error_text env (extra_verbose env request) e)], []) := by
  have hc := clear_spec q hq
  have he1 : codes_nonzero [e] := by
    intro x hx
    simp only [List.mem_singleton] at hx
    subst hx
    exact he
  refine ⟨hc, ?_⟩
  rw [hc, List.nil_append]
  simp [fr_tls_log_error, error_va_spec env request (some p) [e] he1, spec_drain_records]

/-- Witness of C13: a stale queue of two records, then one error and the
message `X failed`. -/
theorem C13_clear_resets_mode_witness :
    codes_nonzero [⟨5, "ssl.c", 10, "bad cert", 2⟩, ⟨6, "x509.c", 20, "", 0⟩] ∧
    (⟨9, "tls.c", 30, "", 0⟩ : err_record).code ≠ 0 ∧
    tls_log_clear [⟨5, "ssl.c", 10, "bad cert", 2⟩, ⟨6, "x509.c", 20, "", 0⟩] = [] ∧
    fr_tls_log_error ⟨0, fun c => "error:" ++ toString c⟩ none (some "X failed")
        (tls_log_clear [⟨5, "ssl.c", 10, "bad cert", 2⟩, ⟨6, "x509.c", 20, "", 0⟩] ++
          [⟨9, "tls.c", 30, "", 0⟩]) =
      (1, [ROPTIONAL none .REDEBUG .ERROR
        ("X failed" ++ ": " ++ spec_error_text ⟨0, fun c => "error:" ++ toString c⟩
          (extra_verbose ⟨0, fun c => "error:" ++ toString c⟩ none)
          ⟨9, "tls.c", 30, "", 0⟩)], []) :=
  ⟨by decide, by decide,
    C13_clear_resets_mode ⟨0, fun c => "error:" ++ toString c⟩ none "X failed"
      [⟨5, "ssl.c", 10, "bad cert", 2⟩, ⟨6, "x509.c", 20, "", 0⟩] ⟨9, "tls.c", 30, "", 0⟩
      (by decide) (by decide)⟩

/-! ## One iteration of the scan loops -/

theorem request_loop_unfold (func : fr_log_type_t → Int → request_t → log_msg → log_event)
    (request : request_t) (fuel : Nat) (lb : fr_tls_log_bio_t) (out : List log_event) :
    tls_log_request_bio_write_cb_loop func request (fuel + 1) lb out =
      match scan_step lb with
      | none => .ok (lb, out)
      | some le =>
        tls_log_request_bio_write_cb_loop func request fuel
          { lb with logged_m := lb.logged_m + le + 1 }
          (if le > 0 then
            out ++ [func lb.type lb.lvl request
              (log_msg.strvalue ((lb.sbuff.drop lb.logged_m).take le))]
          else out) := by
  rw [tls_log_request_bio_write_cb_loop]
  unfold scan_step
  by_cases hb : fr_sbuff_behind lb.sbuff lb.logged_m = 0
  · simp only [hb, if_true]
  · simp only [hb, if_false]

theorem global_loop_unfold (fr_debug_lvl : Int) (fuel : Nat) (lb : fr_tls_log_bio_t)
    (out : List log_event) :
    tls_log_global_bio_write_cb_loop fr_debug_lvl (fuel + 1) lb out =
      match scan_step lb with
      | none => .ok (lb, out)
      | some le =>
        tls_log_global_bio_write_cb_loop fr_debug_lvl fuel
          { lb with logged_m := lb.logged_m + le + 1 }
          (if le > 0 then
            if fr_debug_lvl ≥ lb.lvl then
              out ++ [log_event.fr_log lb.type
                (log_msg.strvalue ((lb.sbuff.drop lb.logged_m).take le))]
            else out
          else out) := by
  rw [tls_log_global_bio_write_cb_loop]
  unfold scan_step
  by_cases hb : fr_sbuff_behind lb.sbuff lb.logged_m = 0
  · simp only [hb, if_true]
  · simp only [hb, if_false]

theorem scan_step_some (lb : fr_tls_log_bio_t) (le : Nat) (h : scan_step lb = some le) :
    lb.logged_m + le + 1 ≤ lb.sbuff.length ∧
    NL ∉ (lb.sbuff.drop lb.logged_m).take le ∧
    ((lb.sbuff.drop lb.logged_m).take le).length = le ∧
    lb.sbuff.drop lb.logged_m =
      (lb.sbuff.drop lb.logged_m).take le ++ NL :: lb.sbuff.drop (lb.logged_m + le + 1) := by
  unfold scan_step at h
  by_cases hb : fr_sbuff_behind lb.sbuff lb.logged_m = 0
  · simp [hb] at h
  · simp only [hb, if_false] at h
    have hlen : lb.sbuff.length - lb.logged_m = (lb.sbuff.drop lb.logged_m).length := by
      rw [List.length_drop]
    rw [hlen] at h
    obtain ⟨post, h1, h2, h3, h4⟩ := memchr_some_split _ NL le h
    have hpost : lb.sbuff.drop (lb.logged_m + le + 1) = post := by
      rw [← h4, List.drop_drop]; congr 1
    have hl := congrArg List.length h1
    simp only [List.length_append, List.length_cons, h3, List.length_drop] at hl
    refine ⟨by omega, h2, h3, ?_⟩
    rw [hpost]
    exact h1

theorem scan_step_count (lb : fr_tls_log_bio_t) (le : Nat) (h : scan_step lb = some le) :
    (lb.sbuff.drop (lb.logged_m + le + 1)).count NL + 1 = (lb.sbuff.drop lb.logged_m).count NL := by
  obtain ⟨_, h2, _, h4⟩ := scan_step_some lb le h
  conv_rhs => rw [h4]
  rw [List.count_append, List.count_cons_self, List.count_eq_zero_of_not_mem h2]
  omega

theorem request_loop_terminates (func : fr_log_type_t → Int → request_t → log_msg → log_event)
    (request : request_t) (fuel : Nat) (lb : fr_tls_log_bio_t) (out : List log_event)
    (hf : (lb.sbuff.drop lb.logged_m).count NL < fuel) :
    ∃ r, tls_log_request_bio_write_cb_loop func request fuel lb out = .ok r := by
  induction fuel generalizing lb out with
  | zero => omega
  | succ fuel ih =>
    rw [request_loop_unfold]
    cases hs : scan_step lb with
    | none => exact ⟨_, rfl⟩
    | some le =>
      have hc := scan_step_count lb le hs
      exact ih _ _ (by simp only; omega)

theorem global_loop_terminates (fr_debug_lvl : Int) (fuel : Nat) (lb : fr_tls_log_bio_t)
    (out : List log_event) (hf : (lb.sbuff.drop lb.logged_m).count NL < fuel) :
    ∃ r, tls_log_global_bio_write_cb_loop fr_debug_lvl fuel lb out = .ok r := by
  induction fuel generalizing lb out with
  | zero => omega
  | succ fuel ih =>
    rw [global_loop_unfold]
    cases hs : scan_step lb with
    | none => exact ⟨_, rfl⟩
    | some le =>
      have hc := scan_step_count lb le hs
      exact ih _ _ (by simp only; omega)

theorem request_loop_more_fuel (func : fr_log_type_t → Int → request_t → log_msg → log_event)
    (request : request_t) (fuel k : Nat) (lb : fr_tls_log_bio_t) (out : List log_event)
    (r : fr_tls_log_bio_t × List log_event)
    (h : tls_log_request_bio_write_cb_loop func request fuel lb out = .ok r) :
    tls_log_request_bio_write_cb_loop func request (fuel + k) lb out = .ok r := by
  induction fuel generalizing lb out with
  | zero => simp [tls_log_request_bio_write_cb_loop] at h
  | succ fuel ih =>
    have he : fuel + 1 + k = (fuel + k) + 1 := by omega
    rw [he, request_loop_unfold]
    rw [request_loop_unfold] at h
    cases hs : scan_step lb with
    | none => rw [hs] at h; exact h
    | some le => rw [hs] at h; exact ih _ _ h

theorem global_loop_more_fuel (fr_debug_lvl : Int) (fuel k : Nat) (lb : fr_tls_log_bio_t)
    (out : List log_event) (r : fr_tls_log_bio_t × List log_event)
    (h : tls_log_global_bio_write_cb_loop fr_debug_lvl fuel lb out = .ok r) :
    tls_log_global_bio_write_cb_loop fr_debug_lvl (fuel + k) lb out = .ok r := by
  induction fuel generalizing lb out with
  | zero => simp [tls_log_global_bio_write_cb_loop] at h
  | succ fuel ih =>
    have he : fuel + 1 + k = (fuel + k) + 1 := by omega
    rw [he, global_loop_unfold]
    rw [global_loop_unfold] at h
    cases hs : scan_step lb with
    | none => rw [hs] at h; exact h
    | some le => rw [hs] at h; exact ih _ _ h

/-! ## Claims on the write callbacks in every state -/

theorem spec_lines_mem (s seg : List Nat) (h : seg ∈ spec_lines s) : seg ≠ [] ∧ NL ∉ seg := by
  induction s using split_induction with
  | h0 t ht => rw [spec_lines_of_not_mem t ht] at h; simp at h
  | h1 pre post hpre ih =>
    rw [spec_lines_first pre post hpre, List.mem_append] at h
    rcases h with h | h
    · by_cases hp : pre = []
      · simp [hp] at h
      · simp only [hp, if_false, List.mem_singleton] at h
        subst h
        exact ⟨hp, hpre⟩
    · exact ih h

theorem spec_lines_terminators (k : Nat) (post : List Nat) :
    spec_lines (List.replicate k NL ++ post) = spec_lines post ∧
    spec_tail (List.replicate k NL ++ post) = spec_tail post := by
  induction k with
  | zero => simp
  | succ k ih =>
    have h1 := spec_lines_first [] (List.replicate k NL ++ post) (by simp)
    have h2 := spec_tail_first [] (List.replicate k NL ++ post) (by simp)
    simp only [List.nil_append, if_true] at h1 h2
    rw [List.replicate_succ, List.cons_append, h1, h2]
    exact ih

theorem spec_lines_run (pre post : List Nat) (k : Nat) (hpre : NL ∉ pre) (hk : 1 ≤ k) :
    spec_lines (pre ++ (List.replicate k NL ++ post)) =
      (if pre = [] then [] else [pre]) ++ spec_lines post ∧
    spec_tail (pre ++ (List.replicate k NL ++ post)) = spec_tail post := by
  obtain ⟨j, rfl⟩ : ∃ j, k = j + 1 := ⟨k - 1, by omega⟩
  rw [List.replicate_succ, List.cons_append, spec_lines_first pre _ hpre,
    spec_tail_first pre _ hpre, (spec_lines_terminators j post).1,
    (spec_lines_terminators j post).2]
  exact ⟨rfl, rfl⟩

/-- C14: in every state of a log BIO and for every input, the global write
callback, and the request write callback of a BIO bound to a request, return,
and the value returned is the length of the input; this includes the writes
whose append would exceed the maximum size and is refused, after which the
buffer holds no byte of the input. -/
theorem C14_write_returns_len (fr_debug_lvl : Int) (lb : fr_tls_log_bio_t) (inp : List Nat) :
    (∀ request, lb.request = some request →
      ∃ lb1 out, tls_log_request_bio_write_cb lb inp = .ok (lb1, out, (inp.length : Int))) ∧
    (∃ lb1 out,
      tls_log_global_bio_write_cb fr_debug_lvl lb inp = .ok (lb1, out, (inp.length : Int))) ∧
    (lb.tctx.max < lb.sbuff.length + inp.length →
      (∀ request, lb.request = some request →
        tls_log_request_bio_write_cb lb inp =
          .ok ({ lb with sbuff := spec_tail (lb.sbuff.drop lb.logged_m),
                         logged_m := lb.logged_m - lb.sbuff.length },
               (spec_lines (lb.sbuff.drop lb.logged_m)).map (request_line lb request),
               (inp.length : Int))) ∧
      tls_log_global_bio_write_cb fr_debug_lvl lb inp =
        .ok ({ lb with sbuff := spec_tail (lb.sbuff.drop lb.logged_m),
                       logged_m := lb.logged_m - lb.sbuff.length },
             global_lines fr_debug_lvl lb (spec_lines (lb.sbuff.drop lb.logged_m)),
             (inp.length : Int))) := by
  refine ⟨?_, ?_, ?_⟩
  · intro request hr
    exact ⟨_, _, request_write_any lb request inp hr⟩
  · exact ⟨_, _, global_write_any fr_debug_lvl lb inp⟩
  · intro hover
    have hb := in_bstrncpy_refused lb.tctx lb.sbuff inp hover
    constructor
    · intro request hr
      have h := request_write_any lb request inp hr
      rw [hb] at h
      exact h
    · have h := global_write_any fr_debug_lvl lb inp
      rw [hb] at h
      exact h

/-- Witness of C14: a request log BIO holding `ab` with a maximum of 4 bytes
receives the three bytes `c`, newline, `d`; the append is refused, no record
is emitted, and 3 is returned. -/
theorem C14_write_returns_len_witness :
    (∃ lb1 out,
      tls_log_request_bio_write_cb
        { bio := 0, sbuff := [97, 98], tctx := { init := 2, max := 4 }, logged_m := 0,
          request := some ⟨7, 0⟩, type := .L_DBG, lvl := 2, file := "tls.c", line := 1 }
        [99, 10, 100] = .ok (lb1, out, ((([99, 10, 100] : List Nat).length : Nat) : Int))) ∧
    tls_log_request_bio_write_cb
        { bio := 0, sbuff := [97, 98], tctx := { init := 2, max := 4 }, logged_m := 0,
          request := some ⟨7, 0⟩, type := .L_DBG, lvl := 2, file := "tls.c", line := 1 }
        [99, 10, 100] =
      .ok ({ bio := 0, sbuff := [97, 98], tctx := { init := 2, max := 4 }, logged_m := 0,
             request := some ⟨7, 0⟩, type := .L_DBG, lvl := 2, file := "tls.c", line := 1 },
           [], 3) :=
  ⟨(C14_write_returns_len 0
      { bio := 0, sbuff := [97, 98], tctx := { init := 2, max := 4 }, logged_m := 0,
        request := some ⟨7, 0⟩, type := .L_DBG, lvl := 2, file := "tls.c", line := 1 }
      [99, 10, 100]).1 ⟨7, 0⟩ rfl,
    rfl⟩

/-- C15: in every state of a log BIO and for every input, each record the write
callback emits carries a line of at least one byte without a line terminator.
An iteration of the scan loop that finds the terminator at the cursor emits
nothing and moves the cursor by one; and a write that starts with k >= 1
adjacent terminators, in a steady state whose pending bytes are `t`, emits `t`
if it is not empty, nothing for the k terminators, then the lines of the rest,
and leaves only the unterminated tail of the rest behind. -/
theorem C15_no_empty_lines (fr_debug_lvl : Int) (lb : fr_tls_log_bio_t) (inp : List Nat) :
    (∀ request, lb.request = some request →
      ∃ lb1 out, tls_log_request_bio_write_cb lb inp = .ok (lb1, out, (inp.length : Int)) ∧
        ∀ ev ∈ out, ∃ seg, line_payload ev = some (.strvalue seg) ∧
          1 ≤ seg.length ∧ NL ∉ seg) ∧
    (∃ lb1 out,
      tls_log_global_bio_write_cb fr_debug_lvl lb inp = .ok (lb1, out, (inp.length : Int)) ∧
        ∀ ev ∈ out, ∃ seg, line_payload ev = some (.strvalue seg) ∧
          1 ≤ seg.length ∧ NL ∉ seg) ∧
    (scan_step lb = some 0 →
      (∀ func request fuel out,
        tls_log_request_bio_write_cb_loop func request (fuel + 1) lb out =
          tls_log_request_bio_write_cb_loop func request fuel
            { lb with logged_m := lb.logged_m + 1 } out) ∧
      (∀ fuel out,
        tls_log_global_bio_write_cb_loop fr_debug_lvl (fuel + 1) lb out =
          tls_log_global_bio_write_cb_loop fr_debug_lvl fuel
            { lb with logged_m := lb.logged_m + 1 } out)) ∧
    (∀ k post request, lb.request = some request → bio_steady lb → 1 ≤ k →
      inp = List.replicate k NL ++ post → lb.sbuff.length + inp.length ≤ lb.tctx.max →
      tls_log_request_bio_write_cb lb inp =
        .ok ({ lb with sbuff := spec_tail post, logged_m := 0 },
             ((if lb.sbuff = [] then [] else [lb.sbuff]) ++ spec_lines post).map
               (request_line lb request),
             (inp.length : Int))) := by
  have hrec : ∀ s : List Nat, ∀ seg ∈ spec_lines s, 1 ≤ seg.length ∧ NL ∉ seg := by
    intro s seg hseg
    obtain ⟨h1, h2⟩ := spec_lines_mem s seg hseg
    exact ⟨List.length_pos.2 h1, h2⟩
  refine ⟨?_, ?_, ?_, ?_⟩
  · intro request hr
    refine ⟨_, _, request_write_any lb request inp hr, ?_⟩
    intro ev hev
    obtain ⟨seg, hseg, rfl⟩ := List.mem_map.1 hev
    refine ⟨seg, ?_, hrec _ seg hseg⟩
    unfold request_line
    split <;> rfl
  · refine ⟨_, _, global_write_any fr_debug_lvl lb inp, ?_⟩
    intro ev hev
    unfold global_lines at hev
    split at hev
    · obtain ⟨seg, hseg, rfl⟩ := List.mem_map.1 hev
      exact ⟨seg, rfl, hrec _ seg hseg⟩
    · simp at hev
  · intro hs
    constructor
    · intro func request fuel out
      rw [request_loop_unfold, hs]
      rfl
    · intro fuel out
      rw [global_loop_unfold, hs]
      rfl
  · intro k post request hr hst hk hinp hfit
    obtain ⟨hm, hnl⟩ := hst
    rw [request_write_any lb request inp hr, in_bstrncpy_fits _ _ _ hfit, hm, hinp]
    simp only [List.drop_zero]
    obtain ⟨h1, h2⟩ := spec_lines_run lb.sbuff post k hnl hk
    rw [h1, h2]
    simp

/-- Witness of C15: the head of the scan loop at two adjacent terminators. -/
theorem C15_no_empty_lines_witness :
    scan_step
      { bio := 0, sbuff := [10, 10, 97], tctx := { init := 1024, max := 10240 }, logged_m := 0,
        request := some ⟨7, 0⟩, type := .L_DBG, lvl := 2, file := "tls.c", line := 1 } = some 0 ∧
    tls_log_request_bio_write_cb (fresh_log_bio 0 "tls.c" 1 (some ⟨7, 0⟩) .L_DBG 2)
        [97, 10, 10, 10, 98, 10, 99] =
      .ok ({ fresh_log_bio 0 "tls.c" 1 (some ⟨7, 0⟩) .L_DBG 2 with sbuff := [99] },
        [.log_request .L_DBG 2 ⟨7, 0⟩ (.strvalue [97]),
         .log_request .L_DBG 2 ⟨7, 0⟩ (.strvalue [98])], 7) ∧
    ∃ lb1 out,
      tls_log_request_bio_write_cb (fresh_log_bio 0 "tls.c" 1 (some ⟨7, 0⟩) .L_DBG 2)
          [97, 10, 10, 10, 98, 10, 99] =
        .ok (lb1, out, ((([97, 10, 10, 10, 98, 10, 99] : List Nat).length : Nat) : Int)) ∧
      ∀ ev ∈ out, ∃ seg, line_payload ev = some (.strvalue seg) ∧ 1 ≤ seg.length ∧ NL ∉ seg :=
  ⟨rfl, rfl,
    (C15_no_empty_lines 0 (fresh_log_bio 0 "tls.c" 1 (some ⟨7, 0⟩) .L_DBG 2)
      [97, 10, 10, 10, 98, 10, 99]).1 ⟨7, 0⟩ rfl⟩

/-! ## Invariants of the reachable states -/

theorem in_bstrncpy_length_le (tctx : fr_sbuff_uctx_talloc_t) (t f : List Nat)
    (h : t.length ≤ tctx.max) : (fr_sbuff_in_bstrncpy tctx t f).length ≤ tctx.max := by
  unfold fr_sbuff_in_bstrncpy
  split
  · simp only [List.length_append]; omega
  · exact h

theorem write_preserves (lb : fr_tls_log_bio_t) (inp : List Nat)
    (hs : bio_steady lb) (hb : bio_bound lb) :
    bio_steady { lb with
        sbuff := spec_tail ((fr_sbuff_in_bstrncpy lb.tctx lb.sbuff inp).drop lb.logged_m),
        logged_m := lb.logged_m - (fr_sbuff_in_bstrncpy lb.tctx lb.sbuff inp).length } ∧
    bio_bound { lb with
        sbuff := spec_tail ((fr_sbuff_in_bstrncpy lb.tctx lb.sbuff inp).drop lb.logged_m),
        logged_m := lb.logged_m - (fr_sbuff_in_bstrncpy lb.tctx lb.sbuff inp).length } := by
  obtain ⟨hm, _⟩ := hs
  obtain ⟨_, hmax, h10⟩ := hb
  have hl := in_bstrncpy_length_le lb.tctx lb.sbuff inp hmax
  have ht := spec_tail_length_le ((fr_sbuff_in_bstrncpy lb.tctx lb.sbuff inp).drop lb.logged_m)
  rw [hm, List.drop_zero] at ht
  refine ⟨⟨?_, spec_tail_not_mem _⟩, ?_, ?_, h10⟩
  · simp only; omega
  · simp only; omega
  · simp only [hm, List.drop_zero]; omega

theorem thread_invariant (ts : thread_state) (h : thread_reachable ts) :
    (∀ lb, ts.request_log_bio = some lb → bio_steady lb ∧ bio_bound lb) ∧
    (∀ lb, ts.global_log_bio = some lb → bio_steady lb ∧ bio_bound lb) := by
  induction h with
  | start n => exact ⟨fun lb h => by simp at h, fun lb h => by simp at h⟩
  | request_acquire ts file line request type lvl _ ih =>
    obtain ⟨ihr, ihg⟩ := ih
    unfold _fr_tls_request_log_bio
    cases hreq : ts.request_log_bio with
    | none =>
      refine ⟨?_, ihg⟩
      intro lb hlb
      simp only [Option.some.injEq] at hlb
      subst hlb
      exact ⟨⟨rfl, by simp⟩, by simp, by simp, rfl⟩
    | some rlb =>
      obtain ⟨_, _, hmax, h10⟩ := ihr rlb hreq
      refine ⟨?_, ihg⟩
      intro lb hlb
      simp only [Option.some.injEq] at hlb
      subst hlb
      exact ⟨⟨rfl, by simp [fr_sbuff_reset_talloc]⟩, by simp [fr_sbuff_reset_talloc],
        by simp [fr_sbuff_reset_talloc], h10⟩
  | global_acquire ts ts1 file line type lvl bio _ hcall ih =>
    obtain ⟨ihr, ihg⟩ := ih
    unfold _fr_tls_global_log_bio at hcall
    cases hglb : ts.global_log_bio with
    | none =>
      rw [hglb] at hcall
      simp only [Except.ok.injEq, Prod.mk.injEq] at hcall
      obtain ⟨_, rfl⟩ := hcall
      refine ⟨ihr, ?_⟩
      intro lb hlb
      simp only [Option.some.injEq] at hlb
      subst hlb
      exact ⟨⟨rfl, by simp⟩, by simp, by simp, rfl⟩
    | some glb =>
      rw [hglb] at hcall
      cases hreq : ts.request_log_bio with
      | none => rw [hreq] at hcall; simp at hcall
      | some rlb =>
        rw [hreq] at hcall
        simp only [Except.ok.injEq, Prod.mk.injEq] at hcall
        obtain ⟨_, rfl⟩ := hcall
        obtain ⟨⟨hrm, _⟩, _, hrmax, hr10⟩ := ihr rlb hreq
        obtain ⟨⟨_, hgnl⟩, _, hgmax, hg10⟩ := ihg glb hglb
        constructor
        · intro lb hlb
          simp only [Option.some.injEq] at hlb
          subst hlb
          exact ⟨⟨hrm, by simp [fr_sbuff_reset_talloc]⟩, by simp [fr_sbuff_reset_talloc, hrm],
            by simp [fr_sbuff_reset_talloc], hr10⟩
        · intro lb hlb
          simp only [Option.some.injEq] at hlb
          subst hlb
          exact ⟨⟨rfl, hgnl⟩, by simp, hgmax, hg10⟩
  | request_write ts lb lb1 inp out n _ hlb hcall ih =>
    obtain ⟨ihr, ihg⟩ := ih
    refine ⟨?_, ihg⟩
    intro lb2 hlb2
    simp only [Option.some.injEq] at hlb2
    subst hlb2
    obtain ⟨hst, hbd⟩ := ihr lb hlb
    rcases Option.eq_none_or_eq_some lb.request with hr | ⟨request, hr⟩
    · simp [tls_log_request_bio_write_cb, hr] at hcall
    · rw [request_write_any lb request inp hr] at hcall
      simp only [Except.ok.injEq, Prod.mk.injEq] at hcall
      obtain ⟨rfl, _, _⟩ := hcall
      exact write_preserves lb inp hst hbd
  | global_write ts fr_debug_lvl lb lb1 inp out n _ hlb hcall ih =>
    obtain ⟨ihr, ihg⟩ := ih
    refine ⟨ihr, ?_⟩
    intro lb2 hlb2
    simp only [Option.some.injEq] at hlb2
    subst hlb2
    obtain ⟨hst, hbd⟩ := ihg lb hlb
    rw [global_write_any fr_debug_lvl lb inp] at hcall
    simp only [Except.ok.injEq, Prod.mk.injEq] at hcall
    obtain ⟨rfl, _, _⟩ := hcall
    exact write_preserves lb inp hst hbd

theorem scan_step_bound (lb : fr_tls_log_bio_t) (le : Nat) (hb : bio_bound lb)
    (h : scan_step lb = some le) : bio_bound { lb with logged_m := lb.logged_m + le + 1 } := by
  obtain ⟨_, hmax, h10⟩ := hb
  exact ⟨(scan_step_some lb le h).1, hmax, h10⟩

theorem scan_after_bound (j : Nat) (lb lbj : fr_tls_log_bio_t) (hb : bio_bound lb)
    (h : scan_after j lb = some lbj) : bio_bound lbj := by
  induction j generalizing lb with
  | zero =>
    simp only [scan_after, Option.some.injEq] at h
    subst h
    exact hb
  | succ j ih =>
    unfold scan_after at h
    cases hs : scan_step lb with
    | none => rw [hs] at h; simp at h
    | some le =>
      rw [hs] at h
      exact ih _ (scan_step_bound lb le hb hs) h

theorem request_loop_after (func : fr_log_type_t → Int → request_t → log_msg → log_event)
    (request : request_t) (j : Nat) (lb lbj : fr_tls_log_bio_t) (out : List log_event)
    (h : scan_after j lb = some lbj) :
    ∃ outj, ∀ fuel, tls_log_request_bio_write_cb_loop func request (fuel + j) lb out =
      tls_log_request_bio_write_cb_loop func request fuel lbj outj := by
  induction j generalizing lb out with
  | zero =>
    simp only [scan_after, Option.some.injEq] at h
    subst h
    exact ⟨out, fun fuel => rfl⟩
  | succ j ih =>
    unfold scan_after at h
    cases hs : scan_step lb with
    | none => rw [hs] at h; simp at h
    | some le =>
      rw [hs] at h
      obtain ⟨outj, houtj⟩ := ih _ (if le > 0 then
        out ++ [func lb.type lb.lvl request
          (log_msg.strvalue ((lb.sbuff.drop lb.logged_m).take le))] else out) h
      refine ⟨outj, fun fuel => ?_⟩
      have he : fuel + (j + 1) = (fuel + j) + 1 := by omega
      rw [he, request_loop_unfold, hs]
      exact houtj fuel

theorem global_loop_after (fr_debug_lvl : Int) (j : Nat) (lb lbj : fr_tls_log_bio_t)
    (out : List log_event) (h : scan_after j lb = some lbj) :
    ∃ outj, ∀ fuel, tls_log_global_bio_write_cb_loop fr_debug_lvl (fuel + j) lb out =
      tls_log_global_bio_write_cb_loop fr_debug_lvl fuel lbj outj := by
  induction j generalizing lb out with
  | zero =>
    simp only [scan_after, Option.some.injEq] at h
    subst h
    exact ⟨out, fun fuel => rfl⟩
  | succ j ih =>
    unfold scan_after at h
    cases hs : scan_step lb with
    | none => rw [hs] at h; simp at h
    | some le =>
      rw [hs] at h
      obtain ⟨outj, houtj⟩ := ih _ (if le > 0 then
        if fr_debug_lvl ≥ lb.lvl then
          out ++ [log_event.fr_log lb.type
            (log_msg.strvalue ((lb.sbuff.drop lb.logged_m).take le))]
        else out
        else out) h
      refine ⟨outj, fun fuel => ?_⟩
      have he : fuel + (j + 1) = (fuel + j) + 1 := by omega
      rw [he, global_loop_unfold, hs]
      exact houtj fuel

theorem refused_example (r : List Nat) (hb : NL ∉ r) (hlen : r.length = 10241) :
    feed_request (fresh_log_bio 0 "tls.c" 1 (some ⟨7, 0⟩) .L_DBG 2) [r]
        = .ok (fresh_log_bio 0 "tls.c" 1 (some ⟨7, 0⟩) .L_DBG 2, []) ∧
      (fresh_log_bio 0 "tls.c" 1 (some ⟨7, 0⟩) .L_DBG 2).sbuff ≠ spec_tail [r].flatten := by
  constructor
  · unfold feed_request
    rw [request_write_spec _ ⟨7, 0⟩ _ rfl (by simp [fresh_log_bio]),
      in_bstrncpy_refused _ _ _ (by simp [fresh_log_bio, hlen])]
    simp [feed_request, fresh_log_bio, spec_tail_of_not_mem, spec_lines_of_not_mem]
  · simp only [List.flatten_cons, List.flatten_nil, List.append_nil, spec_tail_of_not_mem r hb,
      fresh_log_bio]
    intro h
    rw [← h] at hlen
    simp at hlen

/-- C16 (as stated, refuted): 10241 bytes `b` without a line terminator are
written in one call to a freshly acquired request log BIO.  The append exceeds
10 KiB and is refused: the buffer is empty after the call, while the
unterminated tail of the data fed so far is the 10241 bytes. -/
theorem C16_steady_state_counterexample :
    (_fr_tls_request_log_bio "tls.c" 1 (some ⟨7, 0⟩) .L_DBG 2 ⟨none, none, 0⟩).2.request_log_bio
        = some (fresh_log_bio 0 "tls.c" 1 (some ⟨7, 0⟩) .L_DBG 2) ∧
      feed_request (fresh_log_bio 0 "tls.c" 1 (some ⟨7, 0⟩) .L_DBG 2)
          [List.replicate 10241 98]
        = .ok (fresh_log_bio 0 "tls.c" 1 (some ⟨7, 0⟩) .L_DBG 2, []) ∧
      (fresh_log_bio 0 "tls.c" 1 (some ⟨7, 0⟩) .L_DBG 2).sbuff ≠
        spec_tail [List.replicate 10241 98].flatten :=
  ⟨rfl, refused_example (List.replicate 10241 98)
    (fun h => absurd (List.eq_of_mem_replicate h) (by decide)) (List.length_replicate _ _)⟩

/-- C16 (amended): in every state a thread reaches by acquiring and writing,
the cursor of each log BIO is at offset 0 and its buffer holds no line
terminator; and after any sequence of writes to a freshly acquired log BIO in
which the pending data never exceeds 10 KiB, the buffer is exactly the
unterminated tail of the data fed so far, the bytes after the last
terminator. -/
theorem C16_steady_state (ts : thread_state) (hreach : thread_reachable ts)
    (g : Option fr_tls_log_bio_t) (n : Nat) (file : String) (line : Int) (request : request_t)
    (type : fr_log_type_t) (lvl fr_debug_lvl : Int) (fs : List (List Nat))
    (hfit : pending_fits (10 * 1024) [] fs) :
    (∀ lb, ts.request_log_bio = some lb ∨ ts.global_log_bio = some lb →
      lb.logged_m = 0 ∧ NL ∉ lb.sbuff) ∧
    (∃ lb lb1 out,
      (_fr_tls_request_log_bio file line (some request) type lvl ⟨none, g, n⟩).2.request_log_bio
        = some lb ∧
      feed_request lb fs = .ok (lb1, out) ∧
      lb1.logged_m = 0 ∧ lb1.sbuff = spec_tail fs.flatten ∧ NL ∉ lb1.sbuff) ∧
    (∃ lb lb1 out,
      (_fr_tls_global_log_bio file line type lvl ⟨g, none, n⟩).map
        (fun r => r.2.global_log_bio) = .ok (some lb) ∧
      feed_global fr_debug_lvl lb fs = .ok (lb1, out) ∧
      lb1.logged_m = 0 ∧ lb1.sbuff = spec_tail fs.flatten ∧ NL ∉ lb1.sbuff) := by
  obtain ⟨hr, hg⟩ := thread_invariant ts hreach
  refine ⟨?_, ?_, ?_⟩
  · intro lb hlb
    rcases hlb with hlb | hlb
    · exact (hr lb hlb).1
    · exact (hg lb hlb).1
  · have h := feed_request_spec (fresh_log_bio n file line (some request) type lvl) request fs
      rfl rfl (by simp [fresh_log_bio]) (by simpa [fresh_log_bio] using hfit)
    refine ⟨_, _, _, rfl, h, rfl, by simp [fresh_log_bio], spec_tail_not_mem _⟩
  · have h := feed_global_spec fr_debug_lvl (fresh_log_bio n file line none type lvl) fs
      rfl (by simp [fresh_log_bio]) (by simpa [fresh_log_bio] using hfit)
    refine ⟨_, _, _, rfl, h, rfl, by simp [fresh_log_bio], spec_tail_not_mem _⟩

/-- Witness of C16 (amended): the thread at its start, and the writes `a`,
then `b`, newline, `c`. -/
theorem C16_steady_state_witness :
    thread_reachable ⟨none, none, 0⟩ ∧
    pending_fits (10 * 1024) [] [[97], [98, 10, 99]] ∧
    ∃ lb lb1 out,
      (_fr_tls_request_log_bio "tls.c" 1 (some ⟨7, 0⟩) .L_DBG 2
        ⟨none, none, 0⟩).2.request_log_bio = some lb ∧
      feed_request lb [[97], [98, 10, 99]] = .ok (lb1, out) ∧
      lb1.logged_m = 0 ∧ lb1.sbuff = spec_tail ([[97], [98, 10, 99]] : List (List Nat)).flatten ∧
      NL ∉ lb1.sbuff :=
  ⟨thread_reachable.start 0, ⟨by decide, by decide, trivial⟩,
    (C16_steady_state ⟨none, none, 0⟩ (thread_reachable.start 0) none 0 "tls.c" 1 ⟨7, 0⟩
      .L_DBG 2 0 [[97], [98, 10, 99]] ⟨by decide, by decide, trivial⟩).2.1⟩

/-- C17: in every state a thread reaches by acquiring and writing, each log BIO
satisfies `0 ≤ consumed_cursor ≤ len(buffer) ≤ max_capacity` with a maximum of
10 KiB; and inside a write call on such a BIO the bound holds after the append
and after every iteration of the scan loop, the states the loops of both
callbacks pass through. -/
theorem C17_buffer_bound (ts : thread_state) (hreach : thread_reachable ts)
    (lb : fr_tls_log_bio_t) (hlb : ts.request_log_bio = some lb ∨ ts.global_log_bio = some lb) :
    (lb.logged_m ≤ lb.sbuff.length ∧ lb.sbuff.length ≤ lb.tctx.max ∧
      lb.tctx.max = 10 * 1024) ∧
    ∀ (inp : List Nat) (j : Nat) (lbj : fr_tls_log_bio_t),
      scan_after j { lb with sbuff := fr_sbuff_in_bstrncpy lb.tctx lb.sbuff inp } = some lbj →
      (lbj.logged_m ≤ lbj.sbuff.length ∧ lbj.sbuff.length ≤ lbj.tctx.max ∧
        lbj.tctx.max = 10 * 1024) ∧
      (∀ func request, ∃ outj, ∀ fuel,
        tls_log_request_bio_write_cb_loop func request (fuel + j)
            { lb with sbuff := fr_sbuff_in_bstrncpy lb.tctx lb.sbuff inp } [] =
          tls_log_request_bio_write_cb_loop func request fuel lbj outj) ∧
      (∀ fr_debug_lvl, ∃ outj, ∀ fuel,
        tls_log_global_bio_write_cb_loop fr_debug_lvl (fuel + j)
            { lb with sbuff := fr_sbuff_in_bstrncpy lb.tctx lb.sbuff inp } [] =
          tls_log_global_bio_write_cb_loop fr_debug_lvl fuel lbj outj) := by
  obtain ⟨hr, hg⟩ := thread_invariant ts hreach
  have hb : bio_bound lb := by
    rcases hlb with h | h
    · exact (hr lb h).2
    · exact (hg lb h).2
  refine ⟨hb, ?_⟩
  intro inp j lbj hj
  have hb1 : bio_bound { lb with sbuff := fr_sbuff_in_bstrncpy lb.tctx lb.sbuff inp } := by
    obtain ⟨h1, h2, h3⟩ := hb
    refine ⟨?_, in_bstrncpy_length_le _ _ _ h2, h3⟩
    simp only [fr_sbuff_in_bstrncpy]
    split
    · simp only [List.length_append]; omega
    · exact h1
  exact ⟨scan_after_bound j _ lbj hb1 hj,
    fun func request => request_loop_after func request j _ lbj [] hj,
    fun fr_debug_lvl => global_loop_after fr_debug_lvl j _ lbj [] hj⟩

/-- Witness of C17: the request log BIO right after its first acquisition. -/
theorem C17_buffer_bound_witness :
    thread_reachable (_fr_tls_request_log_bio "tls.c" 1 (some ⟨7, 0⟩) .L_DBG 2
      ⟨none, none, 0⟩).2 ∧
    ((fresh_log_bio 0 "tls.c" 1 (some ⟨7, 0⟩) .L_DBG 2).logged_m ≤
        (fresh_log_bio 0 "tls.c" 1 (some ⟨7, 0⟩) .L_DBG 2).sbuff.length ∧
      (fresh_log_bio 0 "tls.c" 1 (some ⟨7, 0⟩) .L_DBG 2).sbuff.length ≤
        (fresh_log_bio 0 "tls.c" 1 (some ⟨7, 0⟩) .L_DBG 2).tctx.max ∧
      (fresh_log_bio 0 "tls.c" 1 (some ⟨7, 0⟩) .L_DBG 2).tctx.max = 10 * 1024) :=
  ⟨thread_reachable.request_acquire _ _ _ _ _ _ (thread_reachable.start 0),
    (C17_buffer_bound
      (_fr_tls_request_log_bio "tls.c" 1 (some ⟨7, 0⟩) .L_DBG 2 ⟨none, none, 0⟩).2
      (thread_reachable.request_acquire _ _ _ _ _ _ (thread_reachable.start 0))
      (fresh_log_bio 0 "tls.c" 1 (some ⟨7, 0⟩) .L_DBG 2) (Or.inl rfl)).1⟩

theorem request_line_payload (lb : fr_tls_log_bio_t) (request : request_t) (seg : List Nat) :
    line_payload (request_line lb request seg) = some (.strvalue seg) := by
  unfold request_line
  split <;> rfl

/-- C19: in every buffer and cursor state of a log BIO bound to a request and
for every input, the request and the global write callback return, leave the
same buffer, cursor and binding, and return the same value; the lines the
global callback emits are the lines the request callback emits when
`fr_debug_lvl >= lvl`, and none otherwise, the suppressed lines being consumed
from the buffer all the same. -/
theorem C19_callbacks_agree (fr_debug_lvl : Int) (lb : fr_tls_log_bio_t) (inp : List Nat)
    (request : request_t) (hr : lb.request = some request) :
    ∃ lb1 out_r out_g,
      tls_log_request_bio_write_cb lb inp = .ok (lb1, out_r, (inp.length : Int)) ∧
      tls_log_global_bio_write_cb fr_debug_lvl lb inp = .ok (lb1, out_g, (inp.length : Int)) ∧
      out_g.map line_payload =
        (if fr_debug_lvl ≥ lb.lvl then out_r.map line_payload else []) := by
  refine ⟨_, _, _, request_write_any lb request inp hr, global_write_any fr_debug_lvl lb inp, ?_⟩
  unfold global_lines
  split
  · simp only [List.map_map]
    apply List.map_congr_left
    intro seg _
    simp only [Function.comp]
    rw [request_line_payload]
    rfl
  · rfl

/-- Witness of C19: the writes of `a`, newline, `b` at a debug level below the
level of the BIO: the global callback emits nothing and both leave `b`. -/
theorem C19_callbacks_agree_witness :
    (fresh_log_bio 0 "tls.c" 1 (some ⟨7, 0⟩) .L_DBG 2).request = some ⟨7, 0⟩ ∧
    (∃ lb1 out_r out_g,
      tls_log_request_bio_write_cb (fresh_log_bio 0 "tls.c" 1 (some ⟨7, 0⟩) .L_DBG 2)
          [97, 10, 98] = .ok (lb1, out_r, ((([97, 10, 98] : List Nat).length : Nat) : Int)) ∧
      tls_log_global_bio_write_cb 1 (fresh_log_bio 0 "tls.c" 1 (some ⟨7, 0⟩) .L_DBG 2)
          [97, 10, 98] = .ok (lb1, out_g, ((([97, 10, 98] : List Nat).length : Nat) : Int)) ∧
      out_g.map line_payload =
        (if (1 : Int) ≥ (fresh_log_bio 0 "tls.c" 1 (some ⟨7, 0⟩) .L_DBG 2).lvl then
          out_r.map line_payload else [])) ∧
    tls_log_global_bio_write_cb 1 (fresh_log_bio 0 "tls.c" 1 (some ⟨7, 0⟩) .L_DBG 2)
        [97, 10, 98] =
      .ok ({ fresh_log_bio 0 "tls.c" 1 (some ⟨7, 0⟩) .L_DBG 2 with sbuff := [98] }, [], 3) :=
  ⟨rfl,
    C19_callbacks_agree 1 (fresh_log_bio 0 "tls.c" 1 (some ⟨7, 0⟩) .L_DBG 2) [97, 10, 98]
      ⟨7, 0⟩ rfl,
    rfl⟩

/-- C20: the scan loop of both write callbacks terminates in every state of the
log BIO: an iteration that does not exit moves the cursor forward by at least
one byte, keeps it at most at the write position of the buffer and consumes
one line terminator of the unconsumed region, so that a number of iterations
of the number of terminators in that region plus one is enough, as is every
larger number, with the same result; the fuel the callbacks pass is at least
that. -/
theorem C20_scan_terminates (func : fr_log_type_t → Int → request_t → log_msg → log_event)
    (request : request_t) (fr_debug_lvl : Int) (lb : fr_tls_log_bio_t) (out : List log_event)
    (k : Nat) :
    (∃ r,
      tls_log_request_bio_write_cb_loop func request
        ((lb.sbuff.drop lb.logged_m).count NL + 1) lb out = .ok r ∧
      tls_log_request_bio_write_cb_loop func request
        ((lb.sbuff.drop lb.logged_m).count NL + 1 + k) lb out = .ok r) ∧
    (∃ r,
      tls_log_global_bio_write_cb_loop fr_debug_lvl
        ((lb.sbuff.drop lb.logged_m).count NL + 1) lb out = .ok r ∧
      tls_log_global_bio_write_cb_loop fr_debug_lvl
        ((lb.sbuff.drop lb.logged_m).count NL + 1 + k) lb out = .ok r) ∧
    (∀ le, scan_step lb = some le →
      lb.logged_m + 1 ≤ lb.logged_m + le + 1 ∧ lb.logged_m + le + 1 ≤ lb.sbuff.length ∧
      (lb.sbuff.drop (lb.logged_m + le + 1)).count NL + 1 =
        (lb.sbuff.drop lb.logged_m).count NL) ∧
    (lb.sbuff.drop lb.logged_m).count NL + 1 ≤ fr_sbuff_behind lb.sbuff lb.logged_m + 1 := by
  refine ⟨?_, ?_, ?_, ?_⟩
  · obtain ⟨r, hr⟩ := request_loop_terminates func request
      ((lb.sbuff.drop lb.logged_m).count NL + 1) lb out (by omega)
    exact ⟨r, hr, request_loop_more_fuel func request _ k lb out r hr⟩
  · obtain ⟨r, hr⟩ := global_loop_terminates fr_debug_lvl
      ((lb.sbuff.drop lb.logged_m).count NL + 1) lb out (by omega)
    exact ⟨r, hr, global_loop_more_fuel fr_debug_lvl _ k lb out r hr⟩
  · intro le hs
    exact ⟨by omega, (scan_step_some lb le hs).1, scan_step_count lb le hs⟩
  · have h := List.count_le_length NL (lb.sbuff.drop lb.logged_m)
    simp only [List.length_drop] at h
    unfold fr_sbuff_behind
    omega

/-- Witness of C20: the buffer `a`, newline, newline, `b`, newline, `c` has
three terminators and the loop needs four evaluations of its head. -/
theorem C20_scan_terminates_witness :
    tls_log_request_bio_write_cb_loop log_event.log_request ⟨7, 0⟩ 4
        { fresh_log_bio 0 "tls.c" 1 (some ⟨7, 0⟩) .L_DBG 2 with
          sbuff := [97, 10, 10, 98, 10, 99] } [] =
      .ok ({ fresh_log_bio 0 "tls.c" 1 (some ⟨7, 0⟩) .L_DBG 2 with
              sbuff := [97, 10, 10, 98, 10, 99], logged_m := 5 },
           [.log_request .L_DBG 2 ⟨7, 0⟩ (.strvalue [97]),
            .log_request .L_DBG 2 ⟨7, 0⟩ (.strvalue [98])]) ∧
    tls_log_request_bio_write_cb_loop log_event.log_request ⟨7, 0⟩ 3
        { fresh_log_bio 0 "tls.c" 1 (some ⟨7, 0⟩) .L_DBG 2 with
          sbuff := [97, 10, 10, 98, 10, 99] } [] = .error .out_of_fuel ∧
    ∃ r,
      tls_log_request_bio_write_cb_loop log_event.log_request ⟨7, 0⟩
        (((({ fresh_log_bio 0 "tls.c" 1 (some ⟨7, 0⟩) .L_DBG 2 with
            sbuff := [97, 10, 10, 98, 10, 99] } : fr_tls_log_bio_t).sbuff.drop
          ({ fresh_log_bio 0 "tls.c" 1 (some ⟨7, 0⟩) .L_DBG 2 with
            sbuff := [97, 10, 10, 98, 10, 99] } : fr_tls_log_bio_t).logged_m).count NL) + 1)
        { fresh_log_bio 0 "tls.c" 1 (some ⟨7, 0⟩) .L_DBG 2 with
          sbuff := [97, 10, 10, 98, 10, 99] } [] = .ok r ∧
      tls_log_request_bio_write_cb_loop log_event.log_request ⟨7, 0⟩
        (((({ fresh_log_bio 0 "tls.c" 1 (some ⟨7, 0⟩) .L_DBG 2 with
            sbuff := [97, 10, 10, 98, 10, 99] } : fr_tls_log_bio_t).sbuff.drop
          ({ fresh_log_bio 0 "tls.c" 1 (some ⟨7, 0⟩) .L_DBG 2 with
            sbuff := [97, 10, 10, 98, 10, 99] } : fr_tls_log_bio_t).logged_m).count NL) + 1 + 2)
        { fresh_log_bio 0 "tls.c" 1 (some ⟨7, 0⟩) .L_DBG 2 with
          sbuff := [97, 10, 10, 98, 10, 99] } [] = .ok r :=
  ⟨rfl, rfl,
    (C20_scan_terminates log_event.log_request ⟨7, 0⟩ 0
      { fresh_log_bio 0 "tls.c" 1 (some ⟨7, 0⟩) .L_DBG 2 with
        sbuff := [97, 10, 10, 98, 10, 99] } [] 2).1⟩

/-- C18 (the code at the failing input): in a thread whose request log BIO was
never created, the first call of `_fr_tls_global_log_bio` creates the global
log BIO with handle 0, and the second call stops on the NULL `request_log_bio`
instead of returning handle 0; two calls of `_fr_tls_request_log_bio` return
the same handle and the second binding replaces the first. -/
theorem C18_global_second_acquire_fails :
    _fr_tls_global_log_bio "tls.c" 1 .L_DBG 2 ⟨none, none, 0⟩ =
      .ok (0, ⟨none, some (fresh_log_bio 0 "tls.c" 1 none .L_DBG 2), 1⟩) ∧
    _fr_tls_global_log_bio "tls.c" 9 .L_INFO 1
        ⟨none, some (fresh_log_bio 0 "tls.c" 1 none .L_DBG 2), 1⟩ =
      .error .null_deref ∧
    _fr_tls_request_log_bio "tls.c" 1 (some ⟨7, 0⟩) .L_DBG 2 ⟨none, none, 0⟩ =
      (0, ⟨some (fresh_log_bio 0 "tls.c" 1 (some ⟨7, 0⟩) .L_DBG 2), none, 1⟩) ∧
    _fr_tls_request_log_bio "eap.c" 9 (some ⟨8, 3⟩) .L_INFO 1
        ⟨some (fresh_log_bio 0 "tls.c" 1 (some ⟨7, 0⟩) .L_DBG 2), none, 1⟩ =
      (0, ⟨some (fresh_log_bio 0 "eap.c" 9 (some ⟨8, 3⟩) .L_INFO 1), none, 1⟩) :=
  ⟨rfl, rfl, rfl, rfl⟩

/-! ## Claim on the certificate chain printer -/

theorem chain_loop_spec (fr_debug_lvl : Int) (request : Option request_t) (chain : List X509)
    (i : Nat) (out : List log_event) (hi : i ≤ chain.length) :
    _fr_tls_log_certificate_chain_loop fr_debug_lvl request chain i out =
      .ok (out ++ ((chain.take i).enum.map (fun p =>
        _tls_ctx_print_cert_line fr_debug_lvl request ((p.1 : Int) + 1) p.2)).reverse) := by
  induction i generalizing out with
  | zero => simp [_fr_tls_log_certificate_chain_loop]
  | succ i ih =>
    have hlt : i < chain.length := by omega
    have hget : chain.get? i = some (chain.get ⟨i, hlt⟩) := List.get?_eq_get hlt
    have hget2 : chain[i]? = some (chain.get ⟨i, hlt⟩) := by
      rw [← List.get?_eq_getElem?]; exact hget
    unfold _fr_tls_log_certificate_chain_loop
    rw [hget]
    simp only
    rw [ih _ (by omega), List.take_succ, hget2]
    simp only [Option.toList, List.enum_append, List.enumFrom_singleton, List.map_append,
      List.map_cons, List.map_nil, List.reverse_append, List.reverse_cons, List.reverse_nil,
      List.nil_append, List.length_take, List.append_assoc, List.singleton_append]
    have hmin : min i chain.length = i := by omega
    rw [hmin]

/-- C21 (the code at the failing input): for an absent chain `sk_X509_num`
returns -1, the loop is not entered and the leaf certificate is printed with
the value `i` still holds, the label -1 and not 0.  For a chain of n >= 0
certificates that is present the function emits n + 1 records, the chain from
its last certificate labelled n down to its first labelled 1, then the leaf
labelled 0. -/
theorem C21_absent_chain_leaf_label (fr_debug_lvl : Int) (request : Option request_t)
    (chain : List X509) (cert : X509) :
    _fr_tls_log_certificate_chain 3 none none ⟨"RSA", "/CN=leaf"⟩ =
      .ok [.fr_log_dst 3 (.text "[-1] RSA /CN=leaf")] ∧
    _fr_tls_log_certificate_chain fr_debug_lvl request none cert =
      .ok [_tls_ctx_print_cert_line fr_debug_lvl request (-1) cert] ∧
    _fr_tls_log_certificate_chain fr_debug_lvl request (some chain) cert =
      .ok (spec_chain_records fr_debug_lvl request chain cert) ∧
    (spec_chain_records fr_debug_lvl request chain cert).length = chain.length + 1 := by
  refine ⟨rfl, rfl, ?_, ?_⟩
  · unfold _fr_tls_log_certificate_chain spec_chain_records
    simp only [sk_X509_num, Option.getD_some, Int.toNat_ofNat]
    rw [chain_loop_spec fr_debug_lvl request chain chain.length [] (le_refl _)]
    simp only [List.take_length, List.nil_append]
    by_cases h : (chain.length : Int) > 0
    · simp only [h, if_true]
    · have h0 : (chain.length : Int) = 0 := by omega
      simp only [h0, gt_iff_lt, lt_self_iff_false, if_false]
  · simp [spec_chain_records]

end TlsLog
